import Mathlib

set_option maxHeartbeats 1000000

namespace Zen

attribute [local semireducible] Rat.add Rat.mul Rat.sub Rat.inv

/-- Scene-pixel coordinates of one sampled point (source `Point`). -/
structure Point where
  x : ℚ
  y : ℚ
deriving DecidableEq

/-- Kinds of decorative objects (source `GardenObject` in `ZenGarden.tsx`). -/
inductive GardenObject
  | stone
  | bonsai
  | lantern
deriving DecidableEq

/-- The active tool (source `Tool` in `ZenGarden.tsx`). -/
inductive Tool
  | rake
  | place
deriving DecidableEq

/-- A value-level rake path as computed by the pattern generators
(source `RakePath`): id, full point list and stroke width. -/
structure RakePath where
  id : String
  points : List Point
  width : ℚ
deriving DecidableEq

/-- A rake path as stored in the live scene.  In the source the `points`
field is a mutable JavaScript array that is shared between the scene, the
`currentPathRef` and any history snapshot produced by a shallow copy, so it
is modelled as an index (`ptsRef`) into an arena of point arrays. -/
structure RakePathRef where
  id : String
  ptsRef : ℕ
  width : ℚ
deriving DecidableEq

/-- A placed object (source `PlacedObject` in `ZenGarden.tsx`);
never mutated after creation. -/
structure PlacedObject where
  id : String
  type : GardenObject
  x : ℚ
  y : ℚ
  rotation : ℚ
  scale : ℚ
deriving DecidableEq

/-- One history snapshot (source `CanvasState`): the two arrays copied by
`saveState` with the spread operator.  The copies are shallow: snapshot
entries still reference the same points cells as the live paths. -/
structure CanvasState where
  rakePaths : List RakePathRef
  placedObjects : List PlacedObject
deriving DecidableEq

/-- The whole mutable state of the `useCanvas` hook: the React state cells
(`isDrawing`, `rakePaths`, `placedObjects`, `undoStack`), the two refs
(`currentPathRef`, `lastPointRef`) and the arena holding every points array
ever allocated. -/
structure GardenState where
  isDrawing : Bool
  rakePaths : List RakePathRef
  placedObjects : List PlacedObject
  undoStack : List CanvasState
  currentPath : Option RakePathRef
  lastPoint : Option Point
  arena : List (List Point)
deriving DecidableEq

/-- Initial state of the hook: empty scene, empty history. -/
def initState : GardenState :=
  { isDrawing := false
    rakePaths := []
    placedObjects := []
    undoStack := []
    currentPath := none
    lastPoint := none
    arena := [] }

/-- Model of JavaScript `array.slice(-20)`: keep the last (at most) 20
entries. -/
def slice20 (l : List α) : List α := l.drop (l.length - 20)

/-- Source `saveState` (lines 34-39): push a shallow copy of the current
`rakePaths` and `placedObjects` onto the undo stack, keeping the last 20
states. -/
def saveState (s : GardenState) : GardenState :=
  { s with undoStack :=
      slice20 (s.undoStack ++ [{ rakePaths := s.rakePaths, placedObjects := s.placedObjects }]) }

/-- The source compares `Math.sqrt(dx*dx + dy*dy) > 3`; over nonnegative
reals this is equivalent to the squared comparison `dx*dx + dy*dy > 9`,
which keeps the predicate decidable over ℚ. -/
def exceedsThreshold (last pt : Point) : Bool :=
  decide ((9 : ℚ) < (pt.x - last.x) ^ 2 + (pt.y - last.y) ^ 2)

/-- Replace-or-append step used by `handleMouseMove`/`handleTouchMove`
(lines 305-314): find the scene path with the current path's id and
overwrite it with a shallow copy of the current path, else append. -/
def updateScenePath (cp : RakePathRef) (paths : List RakePathRef) : List RakePathRef :=
  match paths.findIdx? (fun p => p.id = cp.id) with
  | some k => paths.set k cp
  | none => paths ++ [cp]

/-- Source `handleMouseDown` (lines 256-286).  With tool `rake` it saves a
snapshot, starts drawing and seeds a fresh path (a fresh points array holding
the down point) in `currentPathRef` only; with tool `place` it saves a
snapshot and appends a new object.  `r1` and `r2` are the `Math.random()`
draws (width for rake, rotation and scale for place); `id` is the
`Date.now().toString()` identifier. -/
def handleMouseDown (tool : Tool) (sel : GardenObject) (pt : Point) (id : String)
    (r1 r2 : ℚ) (s : GardenState) : GardenState :=
  match tool with
  | Tool.rake =>
      let s1 := saveState s
      let cell := s1.arena.length
      { s1 with
          isDrawing := true
          arena := s1.arena ++ [[pt]]
          currentPath := some { id := id, ptsRef := cell, width := 8 + r1 * 4 }
          lastPoint := some pt }
  | Tool.place =>
      let s1 := saveState s
      let obj : PlacedObject :=
        { id := id, type := sel, x := pt.x, y := pt.y
          rotation := (r1 - 1/2) * (2/5), scale := 4/5 + r2 * (2/5) }
      { s1 with placedObjects := s1.placedObjects ++ [obj] }

/-- Source `handleMouseMove` (lines 288-317): while drawing with the rake,
append the moved-to point to the current path's points array (an in-place
push on the shared cell) and write a shallow copy of the current path into
the scene, but only when the distance from the last recorded point exceeds
3 pixels. -/
def handleMouseMove (tool : Tool) (pt : Point) (s : GardenState) : GardenState :=
  match s.isDrawing, tool, s.currentPath, s.lastPoint with
  | true, Tool.rake, some cp, some last =>
      if exceedsThreshold last pt then
        { s with
            arena := s.arena.set cp.ptsRef (s.arena.getD cp.ptsRef [] ++ [pt])
            lastPoint := some pt
            rakePaths := updateScenePath cp s.rakePaths }
      else s
  | _, _, _, _ => s

/-- Source `handleMouseUp` (lines 319-325): finalize an in-progress gesture. -/
def handleMouseUp (s : GardenState) : GardenState :=
  if s.isDrawing then
    { s with isDrawing := false, currentPath := none, lastPoint := none }
  else s

/-- Source `handleTouchStart` (lines 328-360); acts on `touches[0]`, with
logic identical to `handleMouseDown`. -/
def handleTouchStart (tool : Tool) (sel : GardenObject) (pt : Point) (id : String)
    (r1 r2 : ℚ) (s : GardenState) : GardenState :=
  match tool with
  | Tool.rake =>
      let s1 := saveState s
      let cell := s1.arena.length
      { s1 with
          isDrawing := true
          arena := s1.arena ++ [[pt]]
          currentPath := some { id := id, ptsRef := cell, width := 8 + r1 * 4 }
          lastPoint := some pt }
  | Tool.place =>
      let s1 := saveState s
      let obj : PlacedObject :=
        { id := id, type := sel, x := pt.x, y := pt.y
          rotation := (r1 - 1/2) * (2/5), scale := 4/5 + r2 * (2/5) }
      { s1 with placedObjects := s1.placedObjects ++ [obj] }

/-- Source `handleTouchMove` (lines 362-393); logic identical to
`handleMouseMove` on `touches[0]`. -/
def handleTouchMove (tool : Tool) (pt : Point) (s : GardenState) : GardenState :=
  match s.isDrawing, tool, s.currentPath, s.lastPoint with
  | true, Tool.rake, some cp, some last =>
      if exceedsThreshold last pt then
        { s with
            arena := s.arena.set cp.ptsRef (s.arena.getD cp.ptsRef [] ++ [pt])
            lastPoint := some pt
            rakePaths := updateScenePath cp s.rakePaths }
      else s
  | _, _, _, _ => s

/-- Source `handleTouchEnd` (lines 395-402); logic identical to
`handleMouseUp`. -/
def handleTouchEnd (s : GardenState) : GardenState :=
  if s.isDrawing then
    { s with isDrawing := false, currentPath := none, lastPoint := none }
  else s

/-- Source `clearGarden` (lines 405-410): save a snapshot then empty both
scene collections.  The drawing refs are left untouched. -/
def clearGarden (s : GardenState) : GardenState :=
  let s1 := saveState s
  { s1 with rakePaths := [], placedObjects := [] }

/-- Source `undo` (lines 413-421): if the stack is nonempty, pop the most
recent snapshot and replace the scene collections wholesale with it. -/
def undo (s : GardenState) : GardenState :=
  match s.undoStack.getLast? with
  | some lastState =>
      { s with
          rakePaths := lastState.rakePaths
          placedObjects := lastState.placedObjects
          undoStack := s.undoStack.dropLast }
  | none => s

/-- Iterate `undo` a given number of times. -/
def undoIter : ℕ → GardenState → GardenState
  | 0, s => s
  | n + 1, s => undoIter n (undo s)

/-- Abstraction of the JavaScript `Math` primitives used only to compute
point coordinates (`Math.cos`, `Math.sin`, `Math.atan2`, `Math.hypot`,
`Math.sqrt`).  No claim depends on their values. -/
structure Trig where
  cos : ℚ → ℚ
  sin : ℚ → ℚ
  atan2 : ℚ → ℚ → ℚ
  hypot : ℚ → ℚ → ℚ
  sqrt : ℚ → ℚ

/-- A trivially-valued instance of the trig primitives, used for concrete
evaluation in witnesses (no claim depends on coordinate values). -/
def trivTrig : Trig :=
  { cos := fun _ => 0, sin := fun _ => 0, atan2 := fun _ _ => 0
    hypot := fun _ _ => 0, sqrt := fun _ => 0 }

/-- A stream of `Math.random()` draws, consumed at explicit indices. -/
abbrev Rng := ℕ → ℚ

/-- A random stream is in range when every draw lies in `[0, 1)`, as
`Math.random()` guarantees. -/
def RngOk (g : Rng) : Prop := ∀ n, 0 ≤ g n ∧ g n < 1

/-- The double-precision value of `Math.PI`. -/
def piQ : ℚ := 3141592653589793 / 1000000000000000

/-- Number of iterations of the JavaScript loop
`for (let i = 0; i <= q; i++)`. -/
def loopCount (q : ℚ) : ℕ := if q < 0 then 0 else (⌊q⌋).toNat + 1

/-- Source `generateSpiralPattern` (lines 424-437). -/
def generateSpiralPattern (tr : Trig) (centerX centerY radius turns : ℚ) : List Point :=
  let totalPoints : ℚ := turns * 50
  (List.range (loopCount totalPoints)).map (fun (i : ℕ) =>
    let angle := ((i : ℚ) / totalPoints) * turns * 2 * piQ
    let currentRadius := ((i : ℚ) / totalPoints) * radius
    { x := centerX + tr.cos angle * currentRadius
      y := centerY + tr.sin angle * currentRadius })

/-- Source `generateWavePattern` (lines 439-452). -/
def generateWavePattern (tr : Trig) (startX startY endX amplitude frequency : ℚ) : List Point :=
  let distance := endX - startX
  let steps : ℤ := ⌊distance / 3⌋
  (List.range (loopCount (steps : ℚ))).map (fun (i : ℕ) =>
    let progress := (i : ℚ) / (steps : ℚ)
    { x := startX + progress * distance
      y := startY + tr.sin (progress * frequency * piQ * 2) * amplitude })

/-- Source `generateCirclePattern` (lines 454-466). -/
def generateCirclePattern (tr : Trig) (centerX centerY radius : ℚ) : List Point :=
  let totalPoints : ℤ := ⌊radius * (1/2)⌋
  (List.range (loopCount (totalPoints : ℚ))).map (fun (i : ℕ) =>
    let angle := ((i : ℚ) / (totalPoints : ℚ)) * 2 * piQ
    { x := centerX + tr.cos angle * radius
      y := centerY + tr.sin angle * radius })

/-- Source `generateEllipsePattern` (lines 468-481): the sampling count has
an explicit floor of 24. -/
def generateEllipsePattern (tr : Trig) (centerX centerY radiusX radiusY : ℚ) : List Point :=
  let approxPerimeter :=
    piQ * (3 * (radiusX + radiusY) - tr.sqrt ((3 * radiusX + radiusY) * (radiusX + 3 * radiusY)))
  let totalPoints : ℤ := max 24 ⌊approxPerimeter * (3/10)⌋
  (List.range (loopCount (totalPoints : ℚ))).map (fun (i : ℕ) =>
    let angle := ((i : ℚ) / (totalPoints : ℚ)) * 2 * piQ
    { x := centerX + tr.cos angle * radiusX
      y := centerY + tr.sin angle * radiusY })

/-- Model of a JavaScript `for (let r = start; r < bound; r += step)` loop
header: the list of values taken by `r`.  The fuel argument only bounds the
number of iterations; every loop in the source runs far fewer than 1000
iterations on its actual inputs. -/
def qRange (bound step : ℚ) : ℚ → ℕ → List ℚ
  | _, 0 => []
  | start, fuel + 1 =>
      if start < bound then start :: qRange bound step (start + step) fuel else []

/-- Paths of the concentric-circles layout (source lines 486-501), one width
draw per circle. -/
def circlePaths (tr : Trig) (cx cy : ℚ) (g : Rng) : List ℚ → ℕ → List RakePath × ℕ
  | [], i => ([], i)
  | r :: rs, i =>
      let rest := circlePaths tr cx cy g rs (i + 1)
      ({ id := "circle-" ++ toString r
         points := generateCirclePattern tr cx cy r
         width := 6 + g i * 4 } :: rest.1, rest.2)

/-- Layout 0: concentric circles (source lines 486-501). -/
def patternCircles (tr : Trig) (cw ch : ℚ) (g : Rng) (i : ℕ) : List RakePath × ℕ :=
  circlePaths tr (cw / 2) (ch / 2) g (qRange (min cw ch / 2 - 50) 40 50 1000) i

/-- Layout 1: single spiral (source lines 504-514). -/
def patternSpiral (tr : Trig) (cw ch : ℚ) (g : Rng) (i : ℕ) : List RakePath × ℕ :=
  let maxRadius := min cw ch / 2 - 50
  ([{ id := "spiral-main"
      points := generateSpiralPattern tr (cw / 2) (ch / 2) maxRadius 4
      width := 8 + g i * 4 }], i + 1)

/-- Waves of layout 2, in order, three draws per wave (amplitude, frequency,
width; source lines 517-536). -/
def wavePathsAux (tr : Trig) (cw spacing : ℚ) (g : Rng) : ℕ → ℕ → ℕ → List RakePath × ℕ
  | 0, _, i => ([], i)
  | rem + 1, k, i =>
      let y := spacing * (k : ℚ)
      let amplitude := 30 + g i * 20
      let frequency := 2 + g (i + 1) * 2
      let p : RakePath :=
        { id := "wave-" ++ toString k
          points := generateWavePattern tr 50 y (cw - 50) amplitude frequency
          width := 6 + g (i + 2) * 4 }
      let rest := wavePathsAux tr cw spacing g rem (k + 1) (i + 3)
      (p :: rest.1, rest.2)

/-- Layout 2: horizontal sine waves (source lines 517-536). -/
def patternWaves (tr : Trig) (cw ch : ℚ) (g : Rng) (i : ℕ) : List RakePath × ℕ :=
  wavePathsAux tr cw (ch / (5 + 1)) g 5 1 i

/-- Point sequence of one mandala petal (source lines 552-564). -/
def mandalaPetal (tr : Trig) (cx cy angle : ℚ) : List Point :=
  let startX := cx + tr.cos angle * 50
  let startY := cy + tr.sin angle * 50
  let endX := cx + tr.cos angle * 200
  let endY := cy + tr.sin angle * 200
  (List.range 31).map (fun (j : ℕ) =>
    let t := (j : ℚ) / 30
    let curveOffset := tr.sin (t * piQ) * 30
    let perpAngle := angle + piQ / 2
    { x := startX + (endX - startX) * t + tr.cos perpAngle * curveOffset
      y := startY + (endY - startY) * t + tr.sin perpAngle * curveOffset })

/-- The eight petals of layout 3 in order, one width draw each. -/
def mandalaPetals (tr : Trig) (cx cy : ℚ) (g : Rng) : ℕ → ℕ → ℕ → List RakePath × ℕ
  | 0, _, i => ([], i)
  | rem + 1, k, i =>
      let angle := ((k : ℚ) / 8) * 2 * piQ
      let p : RakePath :=
        { id := "petal-" ++ toString k
          points := mandalaPetal tr cx cy angle
          width := 5 + g i * 3 }
      let rest := mandalaPetals tr cx cy g rem (k + 1) (i + 1)
      (p :: rest.1, rest.2)

/-- Layout 3: mandala-like pattern, eight petals plus a center circle of
fixed width 8 (source lines 539-582). -/
def patternMandala (tr : Trig) (cw ch : ℚ) (g : Rng) (i : ℕ) : List RakePath × ℕ :=
  let cx := cw / 2
  let cy := ch / 2
  let petals := mandalaPetals tr cx cy g 8 0 i
  (petals.1 ++
    [{ id := "center-circle", points := generateCirclePattern tr cx cy 30, width := 8 }],
   petals.2)

/-- Points of one raked vertical line of layout 4 (source lines 592-600);
one random draw per point for the wave offset. -/
def zenLinePoints (tr : Trig) (ch x : ℚ) (g : Rng) (i : ℕ) : List Point :=
  (List.range 41).map (fun (j : ℕ) =>
    let t := (j : ℚ) / 40
    let y := 50 + t * (ch - 100)
    let waveOffset := tr.sin (t * piQ * 3) * (15 + g (i + j) * 10)
    { x := x + waveOffset, y := y })

/-- The twelve lines of layout 4 in order (41 offset draws then one width
draw per line). -/
def zenLinesAux (tr : Trig) (ch spacing : ℚ) (g : Rng) : ℕ → ℕ → ℕ → List RakePath × ℕ
  | 0, _, i => ([], i)
  | rem + 1, k, i =>
      let p : RakePath :=
        { id := "zen-line-" ++ toString k
          points := zenLinePoints tr ch (spacing * (k : ℚ)) g i
          width := 6 + g (i + 41) * 4 }
      let rest := zenLinesAux tr ch spacing g rem (k + 1) (i + 42)
      (p :: rest.1, rest.2)

/-- Layout 4: vertical wavy "zen garden raked lines" (source lines 585-610). -/
def patternZenLines (tr : Trig) (cw ch : ℚ) (g : Rng) (i : ℕ) : List RakePath × ℕ :=
  zenLinesAux tr ch (cw / (12 + 1)) g 12 1 i

/-- Elliptical rings of layout 5 in order, one width draw per ring
(source lines 620-625). -/
def ellipsePathsAux (tr : Trig) (cx cy maxRX maxRY : ℚ) (g : Rng) :
    List ℚ → ℕ → List RakePath × ℕ
  | [], i => ([], i)
  | r :: rs, i =>
      let ry := max 24 ((r / maxRX) * maxRY)
      let p : RakePath :=
        { id := "ellipse-" ++ toString r
          points := generateEllipsePattern tr cx cy r ry
          width := 6 + g i * 3 }
      let rest := ellipsePathsAux tr cx cy maxRX maxRY g rs (i + 1)
      (p :: rest.1, rest.2)

/-- Layout 5: concentric ellipses (source lines 613-628); one draw for the
vertical-radius factor, then one width draw per ring. -/
def patternEllipses (tr : Trig) (cw ch : ℚ) (g : Rng) (i : ℕ) : List RakePath × ℕ :=
  let maxRX := min cw ch / 2 - 60
  let maxRY := maxRX * (6/10 + g i * (3/10))
  ellipsePathsAux tr (cw / 2) (ch / 2) maxRX maxRY g (qRange maxRX 36 40 1000) (i + 1)

/-- Layout 6: counter-rotating double spiral (source lines 631-650); the
second branch maps every point of the first through a half-turn using
`Math.atan2` and `Math.hypot`. -/
def patternDoubleSpiral (tr : Trig) (cw ch : ℚ) (g : Rng) (i : ℕ) : List RakePath × ℕ :=
  let cx := cw / 2
  let cy := ch / 2
  let maxRadius := min cw ch / 2 - 50
  let mainPts := generateSpiralPattern tr cx cy maxRadius (7/2)
  let pointsB := mainPts.map (fun p =>
    let dx := p.x - cx
    let dy := p.y - cy
    let angle := tr.atan2 dy dx + piQ
    let radius := tr.hypot dx dy
    { x := cx + tr.cos angle * radius, y := cy + tr.sin angle * radius })
  ([{ id := "double-spiral-a", points := mainPts, width := 7 + g i * 3 },
    { id := "double-spiral-b", points := pointsB, width := 7 + g (i + 1) * 3 }], i + 2)

/-- Points of one bamboo stalk (source lines 661-668). -/
def bambooPoints (tr : Trig) (ch x sway freq : ℚ) : List Point :=
  (List.range 49).map (fun (j : ℕ) =>
    let t := (j : ℚ) / 48
    let y := 50 + t * (ch - 100)
    let offset := tr.sin (t * piQ * freq) * sway
    { x := x + offset, y := y })

/-- The stalks of layout 7 in order, three draws per stalk (sway, frequency,
width). -/
def bambooAux (tr : Trig) (cw ch : ℚ) (stalks : ℕ) (g : Rng) :
    ℕ → ℕ → ℕ → List RakePath × ℕ
  | 0, _, i => ([], i)
  | rem + 1, k, i =>
      let x := 60 + ((k : ℚ) + 1/2) * ((cw - 60 * 2) / (stalks : ℚ))
      let sway := 18 + g i * 14
      let freq := 2 + g (i + 1) * (5/2)
      let p : RakePath :=
        { id := "bamboo-" ++ toString k
          points := bambooPoints tr ch x sway freq
          width := 5 + g (i + 2) * 3 }
      let rest := bambooAux tr cw ch stalks g rem (k + 1) (i + 3)
      (p :: rest.1, rest.2)

/-- Layout 7: swaying bamboo verticals (source lines 653-672); 10 to 15
stalks. -/
def patternBamboo (tr : Trig) (cw ch : ℚ) (g : Rng) (i : ℕ) : List RakePath × ℕ :=
  let stalks := 10 + (⌊g i * 6⌋).toNat
  bambooAux tr cw ch stalks g stalks 0 (i + 1)

/-- Ripple rings around one center (source lines 682-685): radius starts at
40 and grows by a random step of 32 to 44 per ring; one width draw then one
step draw per ring. -/
def rippleLoop (tr : Trig) (cx cy bound : ℚ) (g : Rng) (c : ℕ) :
    ℚ → ℕ → ℕ → List RakePath × ℕ
  | _, i, 0 => ([], i)
  | r, i, fuel + 1 =>
      if r < bound then
        let p : RakePath :=
          { id := "ripple-" ++ toString c ++ "-" ++ toString r
            points := generateCirclePattern tr cx cy r
            width := 5 + g i * 3 }
        let step := 32 + g (i + 1) * 12
        let rest := rippleLoop tr cx cy bound g c (r + step) (i + 2) fuel
        (p :: rest.1, rest.2)
      else ([], i)

/-- The centers of layout 8 in order, two position draws per center followed
by that center's rings. -/
def ripplesAux (tr : Trig) (cw ch : ℚ) (g : Rng) : ℕ → ℕ → ℕ → List RakePath × ℕ
  | 0, _, i => ([], i)
  | rem + 1, c, i =>
      let cx := 120 + g i * (cw - 240)
      let cy := 120 + g (i + 1) * (ch - 240)
      let ps := rippleLoop tr cx cy (min cw ch / 3) g c 40 (i + 2) 1000
      let rest := ripplesAux tr cw ch g rem (c + 1) ps.2
      (ps.1 ++ rest.1, rest.2)

/-- Layout 8: multi-center ripples (source lines 675-688); 2 or 3 centers. -/
def patternRipples (tr : Trig) (cw ch : ℚ) (g : Rng) (i : ℕ) : List RakePath × ℕ :=
  let centers := 2 + (⌊g i * 2⌋).toNat
  ripplesAux tr cw ch g centers 0 (i + 1)

/-- Points of one serpentine row (source lines 696-709); one amplitude draw
per point. -/
def serpRowPoints (tr : Trig) (cw ch : ℚ) (row : ℕ) (g : Rng) (i : ℕ) : List Point :=
  let y := 50 + ((row : ℚ) / 9) * (ch - 50 * 2)
  let startX : ℚ := 50
  let endX := cw - 50
  (List.range 81).map (fun (k : ℕ) =>
    let t := (k : ℚ) / 80
    let x := if row % 2 = 0 then startX + t * (endX - startX) else endX - t * (endX - startX)
    let amp := 10 + g (i + k) * 8
    let offset := tr.sin ((t + (row : ℚ) * (3/20)) * piQ * 2) * amp
    { x := x, y := y + offset })

/-- The ten rows of layout 9, concatenated into one point list. -/
def serpRows (tr : Trig) (cw ch : ℚ) (g : Rng) : ℕ → ℕ → ℕ → List Point
  | 0, _, _ => []
  | rem + 1, row, i => serpRowPoints tr cw ch row g i ++ serpRows tr cw ch g rem (row + 1) (i + 81)

/-- Layout 9: row-serpentine fill, a single path (source lines 691-711). -/
def patternSerpentine (tr : Trig) (cw ch : ℚ) (g : Rng) (i : ℕ) : List RakePath × ℕ :=
  ([{ id := "serpentine"
      points := serpRows tr cw ch g 10 0 i
      width := 6 + g (i + 810) * 3 }], i + 811)

/-- Dispatch on the selected layout algorithm (the `patterns` array of
source lines 484-712).  Indices 10 and above are unreachable for an
in-range random draw. -/
def zenPatternAt (tr : Trig) (cw ch : ℚ) (k : ℕ) (g : Rng) (i : ℕ) : List RakePath × ℕ :=
  match k with
  | 0 => patternCircles tr cw ch g i
  | 1 => patternSpiral tr cw ch g i
  | 2 => patternWaves tr cw ch g i
  | 3 => patternMandala tr cw ch g i
  | 4 => patternZenLines tr cw ch g i
  | 5 => patternEllipses tr cw ch g i
  | 6 => patternDoubleSpiral tr cw ch g i
  | 7 => patternBamboo tr cw ch g i
  | 8 => patternRipples tr cw ch g i
  | 9 => patternSerpentine tr cw ch g i
  | _ => ([], i)

/-- Source `generateZenPattern` (lines 483-716): pick one of the ten layout
algorithms uniformly at random and run it. -/
def generateZenPattern (tr : Trig) (cw ch : ℚ) (g : Rng) (i : ℕ) : List RakePath × ℕ :=
  zenPatternAt tr cw ch (⌊g i * 10⌋).toNat g (i + 1)

/-- One step of the reveal animation of `generatePattern` (lines 740-755):
push the next point onto the accumulating path's points array (cell), then
write the scene as everything with a different id followed by a shallow copy
of the accumulating path. -/
def revealStep (cell : ℕ) (r : RakePathRef) (s : GardenState) (pt : Point) : GardenState :=
  { s with
      arena := s.arena.set cell (s.arena.getD cell [] ++ [pt])
      rakePaths := s.rakePaths.filter (fun q => q.id ≠ r.id) ++ [r] }

/-- Reveal one generated path: allocate the accumulating path's fresh points
array, then play every point through `revealStep`. -/
def revealPath (p : RakePath) (s : GardenState) : GardenState :=
  let cell := s.arena.length
  let s1 := { s with arena := s.arena ++ [[]] }
  p.points.foldl (revealStep cell { id := p.id, ptsRef := cell, width := p.width }) s1

/-- Reveal all generated paths in order. -/
def revealPaths (ps : List RakePath) (s : GardenState) : GardenState :=
  ps.foldl (fun acc p => revealPath p acc) s

/-- Index into `['stone', 'bonsai', 'lantern']` by `⌊3·q⌋` (source line
768). -/
def objectKindAt (q : ℚ) : GardenObject :=
  match (⌊q * 3⌋).toNat with
  | 0 => GardenObject.stone
  | 1 => GardenObject.bonsai
  | _ => GardenObject.lantern

/-- One automatically placed object (source lines 766-773); five draws per
object (kind, x, y, rotation, scale). -/
def autoObject (cw ch : ℚ) (g : Rng) (idBase : String) (k i : ℕ) : PlacedObject :=
  { id := "auto-" ++ idBase ++ "-" ++ toString k
    type := objectKindAt (g i)
    x := 100 + g (i + 1) * (cw - 200)
    y := 100 + g (i + 2) * (ch - 200)
    rotation := (g (i + 3) - 1/2) * (2/5)
    scale := 4/5 + g (i + 4) * (2/5) }

/-- The automatically placed objects, in placement order. -/
def autoObjects (cw ch : ℚ) (g : Rng) (idBase : String) (count i : ℕ) : List PlacedObject :=
  (List.range count).map (fun k => autoObject cw ch g idBase k (i + 5 * k))

/-- Source `generatePattern` (lines 719-779), modelled as its completed
effect: push a snapshot, clear both collections, reveal the generated paths
point by point, then with probability 0.7 append one to three random
objects. -/
def generatePattern (tr : Trig) (cw ch : ℚ) (g : Rng) (i : ℕ) (idBase : String)
    (s : GardenState) : GardenState :=
  let s1 := saveState s
  let s2 := { s1 with rakePaths := [], placedObjects := [] }
  let gen := generateZenPattern tr cw ch g i
  let s3 := revealPaths gen.1 s2
  if 3/10 < g gen.2 then
    let count := 1 + (⌊g (gen.2 + 1) * 3⌋).toNat
    { s3 with placedObjects := s3.placedObjects ++ autoObjects cw ch g idBase count (gen.2 + 2) }
  else s3

/-- One externally triggered event on the hook: a raw pointer/touch event or
a button action, carrying its own random draws and identifiers. -/
inductive Event
  | mouseDown (tool : Tool) (sel : GardenObject) (pt : Point) (id : String) (r1 r2 : ℚ)
  | mouseMove (tool : Tool) (pt : Point)
  | mouseUp
  | touchStart (tool : Tool) (sel : GardenObject) (pt : Point) (id : String) (r1 r2 : ℚ)
  | touchMove (tool : Tool) (pt : Point)
  | touchEnd
  | clear
  | undoButton
  | autoPattern (tr : Trig) (cw ch : ℚ) (g : Rng) (i : ℕ) (idBase : String)

/-- Dispatch one event to its handler. -/
def stepEvent : Event → GardenState → GardenState
  | Event.mouseDown tool sel pt id r1 r2, s => handleMouseDown tool sel pt id r1 r2 s
  | Event.mouseMove tool pt, s => handleMouseMove tool pt s
  | Event.mouseUp, s => handleMouseUp s
  | Event.touchStart tool sel pt id r1 r2, s => handleTouchStart tool sel pt id r1 r2 s
  | Event.touchMove tool pt, s => handleTouchMove tool pt s
  | Event.touchEnd, s => handleTouchEnd s
  | Event.clear, s => clearGarden s
  | Event.undoButton, s => undo s
  | Event.autoPattern tr cw ch g i idBase, s => generatePattern tr cw ch g i idBase s

/-- Run a sequence of raw events. -/
def runEvents (es : List Event) (s : GardenState) : GardenState :=
  es.foldl (fun a e => stepEvent e a) s

/-- One complete mutating operation, as the spec enumerates them: a whole
rake gesture (down, moves, up), placing an object, reset, or pattern
generation. -/
inductive Mutation
  | rakeGesture (pt : Point) (id : String) (r : ℚ) (moves : List Point)
  | placeAt (sel : GardenObject) (pt : Point) (id : String) (r1 r2 : ℚ)
  | reset
  | autoPattern (tr : Trig) (cw ch : ℚ) (g : Rng) (i : ℕ) (idBase : String)

/-- The raw events making up one complete mutating operation. -/
def mutationEvents : Mutation → List Event
  | Mutation.rakeGesture pt id r moves =>
      Event.mouseDown Tool.rake GardenObject.stone pt id r 0 ::
        (moves.map (Event.mouseMove Tool.rake) ++ [Event.mouseUp])
  | Mutation.placeAt sel pt id r1 r2 => [Event.mouseDown Tool.place sel pt id r1 r2]
  | Mutation.reset => [Event.clear]
  | Mutation.autoPattern tr cw ch g i idBase => [Event.autoPattern tr cw ch g i idBase]

/-- Apply one complete mutating operation. -/
def applyMutation (m : Mutation) (s : GardenState) : GardenState :=
  runEvents (mutationEvents m) s

/-- Apply a sequence of complete mutating operations. -/
def runMutations (ms : List Mutation) (s : GardenState) : GardenState :=
  ms.foldl (fun a m => applyMutation m a) s

/-- A rake path as an observer sees it: the points cell dereferenced. -/
structure ObsPath where
  id : String
  points : List Point
  width : ℚ
deriving DecidableEq

/-- Dereference a scene path through the arena. -/
def resolvePath (arena : List (List Point)) (p : RakePathRef) : ObsPath :=
  { id := p.id, points := arena.getD p.ptsRef [], width := p.width }

/-- The grooves of the scene as observed (each points cell dereferenced). -/
def obsGrooves (s : GardenState) : List ObsPath :=
  s.rakePaths.map (resolvePath s.arena)

/-- The observable scene: grooves and placed objects. -/
def obsScene (s : GardenState) : List ObsPath × List PlacedObject :=
  (obsGrooves s, s.placedObjects)

/-- The observable content of one history snapshot under a given arena. -/
def obsSnap (arena : List (List Point)) (c : CanvasState) : List ObsPath × List PlacedObject :=
  (c.rakePaths.map (resolvePath arena), c.placedObjects)

/-- The observable contents of the whole undo stack. -/
def obsStack (s : GardenState) : List (List ObsPath × List PlacedObject) :=
  s.undoStack.map (obsSnap s.arena)

/-- The state reached by playing a gesture's move events one by one. -/
def rakeFold (moves : List Point) (t : GardenState) : GardenState :=
  moves.foldl (fun a m => handleMouseMove Tool.rake m a) t

/-- The points a rake gesture records from its move events: a moved-to point
is kept exactly when its distance from the last recorded point exceeds the
3-pixel threshold. -/
def gestureFilter : Point → List Point → List Point
  | _, [] => []
  | last, m :: ms =>
      if exceedsThreshold last m then m :: gestureFilter m ms else gestureFilter last ms

/-- Well-formedness of a state: every points-cell reference in the scene, in
any snapshot, and in the current path points inside the arena. -/
def validState (s : GardenState) : Prop :=
  (∀ p ∈ s.rakePaths, p.ptsRef < s.arena.length) ∧
  (∀ c ∈ s.undoStack, ∀ p ∈ c.rakePaths, p.ptsRef < s.arena.length) ∧
  (∀ cp, s.currentPath = some cp → cp.ptsRef < s.arena.length)

/-- `saveState` of the light "wood frame" theme's `useCanvas` hook, the
second hook appended in src/src/hooks/useSoundManager.ts (lines 268-273 of
that file): push a shallow copy of the scene and keep the last 20 entries.
The controller text of the light hook is identical to the dark hook's, so
each light definition embeds its own source lines with the same transition
as the dark embedding; only the rendering code (wood frame, sand rect,
background cache) differs between the two hooks, and rendering touches no
controller state. -/
def lightSaveState (s : GardenState) : GardenState :=
  { s with undoStack :=
      slice20 (s.undoStack ++ [{ rakePaths := s.rakePaths, placedObjects := s.placedObjects }]) }

/-- `handleMouseDown` of the light theme's hook
(src/src/hooks/useSoundManager.ts lines 761-791; `handleTouchStart`,
lines 833-865, repeats it verbatim on the first touch point): on rake,
save state, start drawing, create a fresh one-point path held only in
`currentPathRef`; on place, save state and append the new object. -/
def lightHandleMouseDown (tool : Tool) (sel : GardenObject) (pt : Point) (id : String)
    (r1 r2 : ℚ) (s : GardenState) : GardenState :=
  match tool with
  | Tool.rake =>
      let s1 := lightSaveState s
      let cell := s1.arena.length
      { s1 with
          isDrawing := true
          arena := s1.arena ++ [[pt]]
          currentPath := some { id := id, ptsRef := cell, width := 8 + r1 * 4 }
          lastPoint := some pt }
  | Tool.place =>
      let s1 := lightSaveState s
      let obj : PlacedObject :=
        { id := id, type := sel, x := pt.x, y := pt.y
          rotation := (r1 - 1/2) * (2/5), scale := 4/5 + r2 * (2/5) }
      { s1 with placedObjects := s1.placedObjects ++ [obj] }

/-- `handleMouseMove` of the light theme's hook
(src/src/hooks/useSoundManager.ts lines 793-822; `handleTouchMove`, lines
867-898, repeats it): while drawing with the rake, a move farther than 3px
from the last recorded point pushes onto the shared points array and
writes the current path into the scene by id (replace or append). -/
def lightHandleMouseMove (tool : Tool) (pt : Point) (s : GardenState) : GardenState :=
  match s.isDrawing, tool, s.currentPath, s.lastPoint with
  | true, Tool.rake, some cp, some last =>
      if exceedsThreshold last pt then
        { s with
            arena := s.arena.set cp.ptsRef (s.arena.getD cp.ptsRef [] ++ [pt])
            lastPoint := some pt
            rakePaths := updateScenePath cp s.rakePaths }
      else s
  | _, _, _, _ => s

/-- `handleMouseUp` of the light theme's hook
(src/src/hooks/useSoundManager.ts lines 824-830; `handleTouchEnd`, lines
900-907, repeats it): end the gesture, clearing the transient refs. -/
def lightHandleMouseUp (s : GardenState) : GardenState :=
  if s.isDrawing then
    { s with isDrawing := false, currentPath := none, lastPoint := none }
  else s

/-- `clearGarden` of the light theme's hook
(src/src/hooks/useSoundManager.ts lines 910-915): save state, then empty
the groove and object lists. -/
def lightClearGarden (s : GardenState) : GardenState :=
  let s1 := lightSaveState s
  { s1 with rakePaths := [], placedObjects := [] }

/-- `undo` of the light theme's hook (src/src/hooks/useSoundManager.ts
lines 918-926): if the stack is nonempty, restore its last entry and drop
it; otherwise do nothing. -/
def lightUndo (s : GardenState) : GardenState :=
  match s.undoStack.getLast? with
  | some lastState =>
      { s with
          rakePaths := lastState.rakePaths
          placedObjects := lastState.placedObjects
          undoStack := s.undoStack.dropLast }
  | none => s

/-- `generatePattern` of the light theme's hook
(src/src/hooks/useSoundManager.ts lines 1224-1284, with the generators at
lines 929-1222): save state, clear the scene, reveal the generated paths,
then with probability 0.7 add 1-3 random objects. The light hook's
generator functions (lines 929-1222) are textually identical to the dark
hook's, so this definition reuses the shared embeddings
`generateZenPattern`, `revealPaths` and `autoObjects`. -/
def lightGeneratePattern (tr : Trig) (cw ch : ℚ) (g : Rng) (i : ℕ) (idBase : String)
    (s : GardenState) : GardenState :=
  let s1 := lightSaveState s
  let s2 := { s1 with rakePaths := [], placedObjects := [] }
  let gen := generateZenPattern tr cw ch g i
  let s3 := revealPaths gen.1 s2
  if 3/10 < g gen.2 then
    let count := 1 + (⌊g (gen.2 + 1) * 3⌋).toNat
    { s3 with placedObjects := s3.placedObjects ++ autoObjects cw ch g idBase count (gen.2 + 2) }
  else s3

/-- Event dispatch of the light theme's controller, wired as in
src/src/components/ZenGarden.tsx onto the handlers of the light hook
(src/src/hooks/useSoundManager.ts lines 761-926 and 1224-1284); touch
events dispatch to the touch handlers, which repeat the pointer handlers
verbatim on the first touch point. -/
def lightStepEvent : Event → GardenState → GardenState
  | Event.mouseDown tool sel pt id r1 r2, s => lightHandleMouseDown tool sel pt id r1 r2 s
  | Event.mouseMove tool pt, s => lightHandleMouseMove tool pt s
  | Event.mouseUp, s => lightHandleMouseUp s
  | Event.touchStart tool sel pt id r1 r2, s => lightHandleMouseDown tool sel pt id r1 r2 s
  | Event.touchMove tool pt, s => lightHandleMouseMove tool pt s
  | Event.touchEnd, s => lightHandleMouseUp s
  | Event.clear, s => lightClearGarden s
  | Event.undoButton, s => lightUndo s
  | Event.autoPattern tr cw ch g i idBase, s => lightGeneratePattern tr cw ch g i idBase s

/-- Run a sequence of raw events through the light theme's controller. -/
def runLightEvents (es : List Event) (s : GardenState) : GardenState :=
  es.foldl (fun a e => lightStepEvent e a) s

theorem slice20_length (l : List α) : (slice20 l).length = min l.length 20 := by
  simp [slice20]
  omega

theorem slice20_append_last (l : List α) (x : α) :
    slice20 (l ++ [x]) = l.drop (l.length + 1 - 20) ++ [x] := by
  unfold slice20
  rw [List.drop_append_eq_append_drop]
  have h1 : (l ++ [x]).length - 20 = l.length + 1 - 20 := by simp
  have h2 : l.length + 1 - 20 - l.length = 0 := by omega
  rw [h1, h2]
  rfl

theorem slice20_getLast_append (l : List α) (x : α) :
    (slice20 (l ++ [x])).getLast? = some x := by
  rw [slice20_append_last, List.getLast?_concat]

theorem dropLast_slice20_append (l : List α) (x : α) :
    (slice20 (l ++ [x])).dropLast = l.drop (l.length + 1 - 20) := by
  rw [slice20_append_last]
  exact List.dropLast_concat

theorem slice20_eq_self (l : List α) (h : l.length ≤ 20) : slice20 l = l := by
  unfold slice20
  have : l.length - 20 = 0 := by omega
  rw [this]
  rfl

theorem slice20_map (f : α → β) (l : List α) : slice20 (l.map f) = (slice20 l).map f := by
  unfold slice20
  rw [List.map_drop, List.length_map]

theorem getD_set_self (l : List α) (i : ℕ) (x d : α) (h : i < l.length) :
    (l.set i x).getD i d = x := by
  induction l generalizing i with
  | nil => simp at h
  | cons a tl ih =>
      cases i with
      | zero => rfl
      | succ n =>
          have hn : n < tl.length := by simpa using h
          simpa [List.getD] using ih n hn

theorem getD_set_ne (l : List α) (i j : ℕ) (x d : α) (h : i ≠ j) :
    (l.set i x).getD j d = l.getD j d := by
  induction l generalizing i j with
  | nil => rfl
  | cons a tl ih =>
      cases i with
      | zero =>
          cases j with
          | zero => exact absurd rfl h
          | succ m => rfl
      | succ n =>
          cases j with
          | zero => rfl
          | succ m =>
              have : n ≠ m := by omega
              simpa [List.getD] using ih n m this

theorem getD_append_left (l₁ l₂ : List α) (i : ℕ) (d : α) (h : i < l₁.length) :
    (l₁ ++ l₂).getD i d = l₁.getD i d := by
  induction l₁ generalizing i with
  | nil => simp at h
  | cons a tl ih =>
      cases i with
      | zero => rfl
      | succ n =>
          have hn : n < tl.length := by simpa using h
          simpa [List.getD] using ih n hn

theorem getD_append_length (l : List α) (x d : α) : (l ++ [x]).getD l.length d = x := by
  induction l with
  | nil => rfl
  | cons a tl ih => exact ih

theorem getD_length_set (l : List α) (i : ℕ) (x : α) : (l.set i x).length = l.length :=
  List.length_set l i x

/-- The squared 3-pixel comparison used in the model agrees with the
source's `Math.sqrt(dx*dx + dy*dy) > 3`. -/
theorem exceedsThreshold_iff_sqrt (a b : Point) :
    exceedsThreshold a b = true ↔
      (3 : ℝ) < Real.sqrt (((b.x - a.x) ^ 2 + (b.y - a.y) ^ 2 : ℚ) : ℝ) := by
  unfold exceedsThreshold
  rw [decide_eq_true_eq]
  rw [Real.lt_sqrt (by norm_num : (0 : ℝ) ≤ 3)]
  have h32 : (3 : ℝ) ^ 2 = ((9 : ℚ) : ℝ) := by norm_num
  rw [h32]
  exact_mod_cast Iff.rfl

/-- The touch handlers duplicate the mouse handlers verbatim in the source. -/
theorem touch_handlers_eq_mouse :
    handleTouchStart = handleMouseDown ∧ handleTouchMove = handleMouseMove ∧
      handleTouchEnd = handleMouseUp :=
  ⟨rfl, rfl, rfl⟩

theorem runEvents_nil (s : GardenState) : runEvents [] s = s := rfl

theorem runEvents_cons (e : Event) (es : List Event) (s : GardenState) :
    runEvents (e :: es) s = runEvents es (stepEvent e s) := rfl

theorem runEvents_append (es₁ es₂ : List Event) (s : GardenState) :
    runEvents (es₁ ++ es₂) s = runEvents es₂ (runEvents es₁ s) := by
  simp [runEvents, List.foldl_append]

theorem runMutations_concat (ms : List Mutation) (m : Mutation) (s : GardenState) :
    runMutations (ms ++ [m]) s = applyMutation m (runMutations ms s) := by
  simp [runMutations, List.foldl_append]

theorem set_append_length (l : List α) (x y : α) : (l ++ [x]).set l.length y = l ++ [y] := by
  induction l with
  | nil => rfl
  | cons a tl ih =>
      show a :: (tl ++ [x]).set tl.length y = a :: (tl ++ [y])
      rw [ih]

theorem updateScenePath_fresh (cp : RakePathRef) (l : List RakePathRef)
    (h : ∀ p ∈ l, p.id ≠ cp.id) : updateScenePath cp l = l ++ [cp] := by
  unfold updateScenePath
  have hn : l.findIdx? (fun p => decide (p.id = cp.id)) = none := by
    rw [List.findIdx?_eq_none_iff]
    intro x hx
    simp [h x hx]
  rw [hn]

theorem findIdx?_set_self (l : List RakePathRef) (cp : RakePathRef) (k : ℕ)
    (h : l.findIdx? (fun p => decide (p.id = cp.id)) = some k) :
    (l.set k cp).findIdx? (fun p => decide (p.id = cp.id)) = some k := by
  induction l generalizing k with
  | nil => simp at h
  | cons a tl ih =>
      by_cases ha : a.id = cp.id
      · rw [List.findIdx?_cons] at h
        rw [if_pos (by simpa using ha)] at h
        have hk : k = 0 := by simpa using h.symm
        subst hk
        simp [List.findIdx?_cons]
      · rw [List.findIdx?_cons, if_neg (by simpa using ha), List.findIdx?_succ] at h
        rcases Option.map_eq_some'.mp h with ⟨k', hk', hkk⟩
        subst hkk
        show ((a :: tl.set k' cp).findIdx? (fun p => decide (p.id = cp.id)) = some (k' + 1))
        rw [List.findIdx?_cons, if_neg (by simpa using ha), List.findIdx?_succ, ih k' hk']
        rfl

theorem updateScenePath_idem (cp : RakePathRef) (l : List RakePathRef) :
    updateScenePath cp (updateScenePath cp l) = updateScenePath cp l := by
  cases h : l.findIdx? (fun p => decide (p.id = cp.id)) with
  | none =>
      have h1 : updateScenePath cp l = l ++ [cp] := by
        unfold updateScenePath
        rw [h]
      have hidx : (l ++ [cp]).findIdx? (fun p => decide (p.id = cp.id)) = some l.length := by
        rw [List.findIdx?_append, h]
        simp [List.findIdx?_cons]
      have h2 : updateScenePath cp (l ++ [cp]) = (l ++ [cp]).set l.length cp := by
        unfold updateScenePath
        rw [hidx]
      rw [h1, h2, set_append_length]
  | some k =>
      have h1 : updateScenePath cp l = l.set k cp := by
        unfold updateScenePath
        rw [h]
      have h2 : updateScenePath cp (l.set k cp) = (l.set k cp).set k cp := by
        unfold updateScenePath
        rw [findIdx?_set_self l cp k h]
      rw [h1, h2, List.set_set]

theorem handleMouseMove_frame (t : Tool) (pt : Point) (s : GardenState) :
    (handleMouseMove t pt s).isDrawing = s.isDrawing ∧
    (handleMouseMove t pt s).undoStack = s.undoStack ∧
    (handleMouseMove t pt s).placedObjects = s.placedObjects ∧
    (handleMouseMove t pt s).currentPath = s.currentPath ∧
    (handleMouseMove t pt s).arena.length = s.arena.length := by
  unfold handleMouseMove
  rcases s with ⟨d, rp, po, us, cp, lp, ar⟩
  cases d <;> cases t <;> cases cp <;> cases lp <;> (simp; try (split <;> simp))

theorem handleMouseMove_active (pt : Point) (s : GardenState) (cp : RakePathRef) (last : Point)
    (h1 : s.isDrawing = true) (h2 : s.currentPath = some cp) (h3 : s.lastPoint = some last) :
    handleMouseMove Tool.rake pt s =
      if exceedsThreshold last pt then
        { s with
            arena := s.arena.set cp.ptsRef (s.arena.getD cp.ptsRef [] ++ [pt])
            lastPoint := some pt
            rakePaths := updateScenePath cp s.rakePaths }
      else s := by
  rcases s with ⟨d, rp, po, us, c, lp, ar⟩
  replace h1 : d = true := h1
  replace h2 : c = some cp := h2
  replace h3 : lp = some last := h3
  subst h1
  subst h2
  subst h3
  rfl

theorem gestureFilter_cons_pos (last m : Point) (ms : List Point)
    (h : exceedsThreshold last m = true) :
    gestureFilter last (m :: ms) = m :: gestureFilter m ms := by
  show (if exceedsThreshold last m = true then m :: gestureFilter m ms
    else gestureFilter last ms) = m :: gestureFilter m ms
  rw [if_pos h]

theorem gestureFilter_cons_neg (last m : Point) (ms : List Point)
    (h : ¬exceedsThreshold last m = true) :
    gestureFilter last (m :: ms) = gestureFilter last ms := by
  show (if exceedsThreshold last m = true then m :: gestureFilter m ms
    else gestureFilter last ms) = gestureFilter last ms
  rw [if_neg h]

theorem gestureFilter_sublist (moves : List Point) :
    ∀ last : Point, (gestureFilter last moves).Sublist moves := by
  induction moves with
  | nil => intro last; simp [gestureFilter]
  | cons m ms ih =>
      intro last
      by_cases h : exceedsThreshold last m = true
      · rw [gestureFilter_cons_pos last m ms h]
        exact (ih m).cons₂ m
      · rw [gestureFilter_cons_neg last m ms h]
        exact (ih last).cons m

theorem gestureFilter_chain (moves : List Point) :
    ∀ last : Point,
      List.Chain (fun a b => exceedsThreshold a b = true) last (gestureFilter last moves) := by
  induction moves with
  | nil => intro last; exact List.Chain.nil
  | cons m ms ih =>
      intro last
      by_cases h : exceedsThreshold last m = true
      · rw [gestureFilter_cons_pos last m ms h]
        exact List.Chain.cons h (ih m)
      · rw [gestureFilter_cons_neg last m ms h]
        exact ih last

theorem getLast?_cons_getD (a d : α) (l : List α) : (a :: l).getLast?.getD d = l.getLast?.getD a := by
  induction l generalizing a d with
  | nil => rfl
  | cons b bs ih =>
      rw [List.getLast?_cons_cons]
      exact (ih b d).trans (ih b a).symm

theorem rakeFold_cons (m : Point) (ms : List Point) (t : GardenState) :
    rakeFold (m :: ms) t = rakeFold ms (handleMouseMove Tool.rake m t) := rfl

theorem rakeFold_spec (moves : List Point) :
    ∀ (t : GardenState) (cp : RakePathRef) (last : Point),
      t.isDrawing = true → t.currentPath = some cp → t.lastPoint = some last →
      cp.ptsRef < t.arena.length →
      (rakeFold moves t).isDrawing = true ∧
      (rakeFold moves t).currentPath = some cp ∧
      (rakeFold moves t).undoStack = t.undoStack ∧
      (rakeFold moves t).placedObjects = t.placedObjects ∧
      (rakeFold moves t).arena.length = t.arena.length ∧
      (∀ j d, j ≠ cp.ptsRef → (rakeFold moves t).arena.getD j d = t.arena.getD j d) ∧
      (rakeFold moves t).arena.getD cp.ptsRef [] =
        t.arena.getD cp.ptsRef [] ++ gestureFilter last moves ∧
      (rakeFold moves t).lastPoint = some ((gestureFilter last moves).getLast?.getD last) ∧
      (rakeFold moves t).rakePaths =
        (if gestureFilter last moves = [] then t.rakePaths else updateScenePath cp t.rakePaths) := by
  induction moves with
  | nil =>
      intro t cp last h1 h2 h3 _
      refine ⟨h1, h2, rfl, rfl, rfl, fun j d _ => rfl, by simp [gestureFilter, rakeFold], ?_, ?_⟩
      · simp [gestureFilter, rakeFold, h3]
      · simp [gestureFilter, rakeFold]
  | cons m ms ih =>
      intro t cp last h1 h2 h3 hlt
      have hstep := handleMouseMove_active m t cp last h1 h2 h3
      by_cases hx : exceedsThreshold last m = true
      · rw [rakeFold_cons, hstep, if_pos hx]
        have ih' := ih
          { t with
              arena := t.arena.set cp.ptsRef (t.arena.getD cp.ptsRef [] ++ [m])
              lastPoint := some m
              rakePaths := updateScenePath cp t.rakePaths }
          cp m h1 h2 rfl (by simpa using hlt)
        obtain ⟨j1, j2, j3, j4, j5, j6, j7, j8, j9⟩ := ih'
        rw [gestureFilter_cons_pos last m ms hx]
        refine ⟨j1, j2, j3, j4, ?_, ?_, ?_, ?_, ?_⟩
        · rw [j5]
          simp
        · intro j d hj
          rw [j6 j d hj]
          exact getD_set_ne t.arena cp.ptsRef j _ d (fun hh => hj hh.symm)
        · rw [j7]
          show (t.arena.set cp.ptsRef (t.arena.getD cp.ptsRef [] ++ [m])).getD cp.ptsRef [] ++
              gestureFilter m ms = _
          rw [getD_set_self t.arena cp.ptsRef _ [] hlt, List.append_assoc]
          rfl
        · rw [j8, getLast?_cons_getD]
        · rw [j9]
          by_cases hms : gestureFilter m ms = []
          · rw [if_pos hms, if_neg (by simp)]
          · rw [if_neg hms, if_neg (by simp)]
            show updateScenePath cp (updateScenePath cp t.rakePaths) = _
            exact updateScenePath_idem cp t.rakePaths
      · rw [rakeFold_cons, hstep, if_neg hx, gestureFilter_cons_neg last m ms hx]
        exact ih t cp last h1 h2 h3 hlt

theorem filter_ne_idem (l : List RakePathRef) (idv : String) :
    (l.filter (fun q => q.id ≠ idv)).filter (fun q => q.id ≠ idv) =
      l.filter (fun q => q.id ≠ idv) := by
  rw [List.filter_filter]
  simp

theorem revealStep_rakePaths (cell : ℕ) (r : RakePathRef) (t : GardenState) (pt : Point) :
    (revealStep cell r t pt).rakePaths = t.rakePaths.filter (fun q => q.id ≠ r.id) ++ [r] := rfl

theorem revealFold_spec (r : RakePathRef) (cell : ℕ) (pts : List Point) :
    ∀ t : GardenState, cell < t.arena.length →
      (pts.foldl (revealStep cell r) t).undoStack = t.undoStack ∧
      (pts.foldl (revealStep cell r) t).placedObjects = t.placedObjects ∧
      (pts.foldl (revealStep cell r) t).isDrawing = t.isDrawing ∧
      (pts.foldl (revealStep cell r) t).currentPath = t.currentPath ∧
      (pts.foldl (revealStep cell r) t).lastPoint = t.lastPoint ∧
      (pts.foldl (revealStep cell r) t).arena.length = t.arena.length ∧
      (∀ j d, j ≠ cell → (pts.foldl (revealStep cell r) t).arena.getD j d = t.arena.getD j d) ∧
      (pts.foldl (revealStep cell r) t).arena.getD cell [] = t.arena.getD cell [] ++ pts ∧
      (pts = [] → (pts.foldl (revealStep cell r) t).rakePaths = t.rakePaths) ∧
      (pts ≠ [] → (pts.foldl (revealStep cell r) t).rakePaths =
        t.rakePaths.filter (fun q => q.id ≠ r.id) ++ [r]) := by
  induction pts with
  | nil =>
      intro t _
      exact ⟨rfl, rfl, rfl, rfl, rfl, rfl, fun j d _ => rfl, by simp, fun _ => rfl,
        fun h => absurd rfl h⟩
  | cons pt rest ih =>
      intro t hc
      simp only [List.foldl_cons]
      have hlen : (revealStep cell r t pt).arena.length = t.arena.length := by
        simp [revealStep]
      have ih' := ih (revealStep cell r t pt) (by rw [hlen]; exact hc)
      obtain ⟨j1, j2, j3, j4, j5, j6, j7, j8, j9, j10⟩ := ih'
      refine ⟨j1, j2, j3, j4, j5, by rw [j6, hlen], ?_, ?_, ?_, ?_⟩
      · intro j d hj
        rw [j7 j d hj]
        show (t.arena.set cell (t.arena.getD cell [] ++ [pt])).getD j d = t.arena.getD j d
        exact getD_set_ne t.arena cell j _ d (fun hh => hj hh.symm)
      · rw [j8]
        show (t.arena.set cell (t.arena.getD cell [] ++ [pt])).getD cell [] ++ rest = _
        rw [getD_set_self t.arena cell _ [] hc, List.append_assoc]
        rfl
      · intro h
        exact absurd h (List.cons_ne_nil pt rest)
      · intro _
        by_cases hr : rest = []
        · subst hr
          exact (j9 rfl).trans (revealStep_rakePaths cell r t pt)
        · rw [j10 hr, revealStep_rakePaths, List.filter_append, filter_ne_idem]
          have hfr : ([r].filter (fun q => q.id ≠ r.id)) = [] := by simp
          rw [hfr, List.append_nil]

theorem revealPath_spec (p : RakePath) (t : GardenState) :
    (revealPath p t).undoStack = t.undoStack ∧
    (revealPath p t).placedObjects = t.placedObjects ∧
    (revealPath p t).isDrawing = t.isDrawing ∧
    (revealPath p t).currentPath = t.currentPath ∧
    (revealPath p t).lastPoint = t.lastPoint ∧
    (revealPath p t).arena.length = t.arena.length + 1 ∧
    (∀ j d, j < t.arena.length → (revealPath p t).arena.getD j d = t.arena.getD j d) ∧
    (revealPath p t).arena.getD t.arena.length [] = p.points ∧
    (p.points = [] → (revealPath p t).rakePaths = t.rakePaths) ∧
    (p.points ≠ [] → (revealPath p t).rakePaths =
      t.rakePaths.filter (fun q => q.id ≠ p.id) ++
        [{ id := p.id, ptsRef := t.arena.length, width := p.width }]) := by
  have hc : t.arena.length <
      ({ t with arena := t.arena ++ [[]] } : GardenState).arena.length := by
    simp
  have hdef : revealPath p t = p.points.foldl
      (revealStep t.arena.length { id := p.id, ptsRef := t.arena.length, width := p.width })
      { t with arena := t.arena ++ [[]] } := rfl
  have hf := revealFold_spec { id := p.id, ptsRef := t.arena.length, width := p.width }
    t.arena.length p.points { t with arena := t.arena ++ [[]] } hc
  obtain ⟨j1, j2, j3, j4, j5, j6, j7, j8, j9, j10⟩ := hf
  rw [hdef]
  refine ⟨j1, j2, j3, j4, j5, ?_, ?_, ?_, j9, j10⟩
  · rw [j6]
    simp
  · intro j d hj
    rw [j7 j d (by omega)]
    show (t.arena ++ [[]]).getD j d = t.arena.getD j d
    exact getD_append_left t.arena [[]] j d hj
  · rw [j8]
    show (t.arena ++ [[]]).getD t.arena.length [] ++ p.points = p.points
    rw [getD_append_length]
    rfl

theorem revealPaths_spec (ps : List RakePath) :
    ∀ t : GardenState,
      (revealPaths ps t).undoStack = t.undoStack ∧
      (revealPaths ps t).placedObjects = t.placedObjects ∧
      (revealPaths ps t).isDrawing = t.isDrawing ∧
      (revealPaths ps t).currentPath = t.currentPath ∧
      (revealPaths ps t).lastPoint = t.lastPoint ∧
      t.arena.length ≤ (revealPaths ps t).arena.length ∧
      (∀ j d, j < t.arena.length → (revealPaths ps t).arena.getD j d = t.arena.getD j d) ∧
      ((∀ q ∈ t.rakePaths, q.ptsRef < t.arena.length) →
        ∀ q ∈ (revealPaths ps t).rakePaths, q.ptsRef < (revealPaths ps t).arena.length) := by
  induction ps with
  | nil =>
      intro t
      exact ⟨rfl, rfl, rfl, rfl, rfl, le_refl _, fun j d _ => rfl, fun h => h⟩
  | cons p rest ih =>
      intro t
      obtain ⟨k1, k2, k3, k4, k5, k6, k7, k8, k9, k10⟩ := revealPath_spec p t
      obtain ⟨j1, j2, j3, j4, j5, j6, j7, j8⟩ := ih (revealPath p t)
      have hstep : revealPaths (p :: rest) t = revealPaths rest (revealPath p t) := rfl
      rw [hstep]
      refine ⟨j1.trans k1, j2.trans k2, j3.trans k3, j4.trans k4, j5.trans k5, ?_, ?_, ?_⟩
      · omega
      · intro j d hj
        rw [j7 j d (by omega)]
        exact k7 j d hj
      · intro hv
        refine j8 ?_
        intro q hq
        rw [k6]
        by_cases hp : p.points = []
        · rw [k9 hp] at hq
          have := hv q hq
          omega
        · rw [k10 hp] at hq
          rcases List.mem_append.mp hq with hql | hqr
          · have := hv q (List.mem_of_mem_filter hql)
            omega
          · have : q = { id := p.id, ptsRef := t.arena.length, width := p.width } := by
              simpa using hqr
            rw [this]
            show t.arena.length < t.arena.length + 1
            omega

theorem generatePattern_frame (tr : Trig) (cw ch : ℚ) (g : Rng) (i : ℕ) (idBase : String)
    (s : GardenState) :
    (generatePattern tr cw ch g i idBase s).undoStack = (saveState s).undoStack ∧
    (generatePattern tr cw ch g i idBase s).isDrawing = s.isDrawing ∧
    (generatePattern tr cw ch g i idBase s).currentPath = s.currentPath ∧
    (generatePattern tr cw ch g i idBase s).lastPoint = s.lastPoint ∧
    s.arena.length ≤ (generatePattern tr cw ch g i idBase s).arena.length ∧
    (∀ j d, j < s.arena.length →
      (generatePattern tr cw ch g i idBase s).arena.getD j d = s.arena.getD j d) ∧
    (∀ q ∈ (generatePattern tr cw ch g i idBase s).rakePaths,
      q.ptsRef < (generatePattern tr cw ch g i idBase s).arena.length) := by
  obtain ⟨j1, j2, j3, j4, j5, j6, j7, j8⟩ :=
    revealPaths_spec (generateZenPattern tr cw ch g i).1
      { saveState s with rakePaths := [], placedObjects := [] }
  have hv := j8 (by intro q hq; simp at hq)
  unfold generatePattern
  by_cases hcond : 3/10 < g (generateZenPattern tr cw ch g i).2 <;>
    simp only [hcond, if_true, if_false, reduceIte] <;>
    exact ⟨j1, j3, j4, j5, j6, j7, hv⟩

theorem mem_slice20 (l : List α) (c : α) (h : c ∈ slice20 l) : c ∈ l :=
  (List.drop_sublist _ _).subset h

theorem saveState_valid (s : GardenState) (hv : validState s) : validState (saveState s) := by
  obtain ⟨v1, v2, v3⟩ := hv
  refine ⟨v1, ?_, v3⟩
  intro c hc p hp
  have hc' := mem_slice20 _ c hc
  rcases List.mem_append.mp hc' with h | h
  · exact v2 c h p hp
  · have hcc : c = { rakePaths := s.rakePaths, placedObjects := s.placedObjects } := by
      simpa using h
    rw [hcc] at hp
    exact v1 p hp

theorem updateScenePath_mem (cp : RakePathRef) (l : List RakePathRef) (q : RakePathRef)
    (h : q ∈ updateScenePath cp l) : q ∈ l ∨ q = cp := by
  unfold updateScenePath at h
  rcases hfind : l.findIdx? (fun p => decide (p.id = cp.id)) with _ | k <;> rw [hfind] at h
  · rcases List.mem_append.mp h with hl | hr
    · exact Or.inl hl
    · exact Or.inr (by simpa using hr)
  · exact List.mem_or_eq_of_mem_set h

theorem handleMouseUp_of_drawing (s : GardenState) (h : s.isDrawing = true) :
    handleMouseUp s = { s with isDrawing := false, currentPath := none, lastPoint := none } := by
  unfold handleMouseUp
  rw [if_pos h]

theorem applyMutation_rake_eq (pt : Point) (id : String) (r : ℚ) (moves : List Point)
    (s : GardenState) :
    applyMutation (Mutation.rakeGesture pt id r moves) s =
      handleMouseUp (rakeFold moves (handleMouseDown Tool.rake GardenObject.stone pt id r 0 s)) := by
  simp [applyMutation, mutationEvents, runEvents, rakeFold, List.foldl_append, List.foldl_map,
    stepEvent]

theorem handleMouseDown_rake_eq (sel : GardenObject) (pt : Point) (id : String) (r1 r2 : ℚ)
    (s : GardenState) :
    handleMouseDown Tool.rake sel pt id r1 r2 s =
      { saveState s with
          isDrawing := true
          arena := s.arena ++ [[pt]]
          currentPath := some { id := id, ptsRef := s.arena.length, width := 8 + r1 * 4 }
          lastPoint := some pt } := rfl

theorem placeAt_eq (sel : GardenObject) (pt : Point) (id : String) (r1 r2 : ℚ)
    (s : GardenState) :
    applyMutation (Mutation.placeAt sel pt id r1 r2) s =
      { saveState s with placedObjects := s.placedObjects ++
          [{ id := id, type := sel, x := pt.x, y := pt.y
             rotation := (r1 - 1/2) * (2/5), scale := 4/5 + r2 * (2/5) }] } := rfl

theorem reset_eq (s : GardenState) :
    applyMutation Mutation.reset s =
      { saveState s with rakePaths := [], placedObjects := [] } := rfl

theorem autoPattern_eq (tr : Trig) (cw ch : ℚ) (g : Rng) (i : ℕ) (idBase : String)
    (s : GardenState) :
    applyMutation (Mutation.autoPattern tr cw ch g i idBase) s =
      generatePattern tr cw ch g i idBase s := rfl

theorem rakeGesture_core (s sd : GardenState) (cp0 : RakePathRef) (pt : Point)
    (moves : List Point) (hv : validState s)
    (hsdd : sd.isDrawing = true) (hsdc : sd.currentPath = some cp0)
    (hsdl : sd.lastPoint = some pt)
    (hsds : sd.undoStack =
      slice20 (s.undoStack ++ [{ rakePaths := s.rakePaths, placedObjects := s.placedObjects }]))
    (hsdp : sd.rakePaths = s.rakePaths)
    (hsdo : sd.placedObjects = s.placedObjects)
    (hsda : sd.arena = s.arena ++ [[pt]])
    (hcp : cp0.ptsRef = s.arena.length) :
    (handleMouseUp (rakeFold moves sd)).undoStack =
      slice20 (s.undoStack ++ [{ rakePaths := s.rakePaths, placedObjects := s.placedObjects }]) ∧
    validState (handleMouseUp (rakeFold moves sd)) ∧
    (handleMouseUp (rakeFold moves sd)).isDrawing = false ∧
    (handleMouseUp (rakeFold moves sd)).currentPath = none ∧
    (handleMouseUp (rakeFold moves sd)).arena.length = s.arena.length + 1 ∧
    (∀ j d, j < s.arena.length →
      (handleMouseUp (rakeFold moves sd)).arena.getD j d = s.arena.getD j d) ∧
    (handleMouseUp (rakeFold moves sd)).arena.getD s.arena.length [] =
      pt :: gestureFilter pt moves ∧
    (handleMouseUp (rakeFold moves sd)).rakePaths =
      (if gestureFilter pt moves = [] then s.rakePaths
       else updateScenePath cp0 s.rakePaths) ∧
    (handleMouseUp (rakeFold moves sd)).placedObjects = s.placedObjects := by
  obtain ⟨v1, v2, v3⟩ := hv
  have hlt : cp0.ptsRef < sd.arena.length := by
    rw [hcp, hsda]
    simp
  obtain ⟨f1, f2, f3, f4, f5, f6, f7, f8, f9⟩ := rakeFold_spec moves sd cp0 pt hsdd hsdc hsdl hlt
  rw [handleMouseUp_of_drawing _ f1]
  have hflen : (rakeFold moves sd).arena.length = s.arena.length + 1 := by
    rw [f5, hsda]
    simp
  have hcell : (rakeFold moves sd).arena.getD s.arena.length [] = pt :: gestureFilter pt moves := by
    have h1 : (rakeFold moves sd).arena.getD cp0.ptsRef [] =
        sd.arena.getD cp0.ptsRef [] ++ gestureFilter pt moves := f7
    rw [hcp] at h1
    rw [h1, hsda, getD_append_length]
    rfl
  have hpaths : (rakeFold moves sd).rakePaths =
      (if gestureFilter pt moves = [] then s.rakePaths else updateScenePath cp0 s.rakePaths) := by
    rw [f9, hsdp]
  refine ⟨?_, ?_, rfl, rfl, ?_, ?_, ?_, ?_, ?_⟩
  · show (rakeFold moves sd).undoStack = _
    rw [f3, hsds]
  · refine ⟨?_, ?_, ?_⟩
    · intro q hq
      have hq' : q ∈ (rakeFold moves sd).rakePaths := hq
      rw [hpaths] at hq'
      show q.ptsRef < (rakeFold moves sd).arena.length
      rw [hflen]
      by_cases hfe : gestureFilter pt moves = []
      · rw [if_pos hfe] at hq'
        have := v1 q hq'
        omega
      · rw [if_neg hfe] at hq'
        rcases updateScenePath_mem cp0 s.rakePaths q hq' with hmem | hqe
        · have := v1 q hmem
          omega
        · rw [hqe, hcp]
          omega
    · intro c hc p hp
      have hc' : c ∈ (rakeFold moves sd).undoStack := hc
      rw [f3, hsds] at hc'
      have hc'' := mem_slice20 _ c hc'
      show p.ptsRef < (rakeFold moves sd).arena.length
      rw [hflen]
      rcases List.mem_append.mp hc'' with h | h
      · have := v2 c h p hp
        omega
      · have hcc : c = { rakePaths := s.rakePaths, placedObjects := s.placedObjects } := by
          simpa using h
        rw [hcc] at hp
        have := v1 p hp
        omega
    · intro cp hcp2
      exact absurd hcp2 (by simp)
  · show (rakeFold moves sd).arena.length = _
    exact hflen
  · intro j d hj
    show (rakeFold moves sd).arena.getD j d = s.arena.getD j d
    have hjne : j ≠ cp0.ptsRef := by
      rw [hcp]
      omega
    rw [f6 j d hjne, hsda]
    exact getD_append_left s.arena [[pt]] j d hj
  · exact hcell
  · exact hpaths
  · show (rakeFold moves sd).placedObjects = _
    rw [f4, hsdo]

theorem rakeGesture_spec (pt : Point) (id : String) (r : ℚ) (moves : List Point)
    (s : GardenState) (hv : validState s) :
    (applyMutation (Mutation.rakeGesture pt id r moves) s).undoStack =
      slice20 (s.undoStack ++ [{ rakePaths := s.rakePaths, placedObjects := s.placedObjects }]) ∧
    validState (applyMutation (Mutation.rakeGesture pt id r moves) s) ∧
    (applyMutation (Mutation.rakeGesture pt id r moves) s).isDrawing = false ∧
    (applyMutation (Mutation.rakeGesture pt id r moves) s).currentPath = none ∧
    (applyMutation (Mutation.rakeGesture pt id r moves) s).arena.length = s.arena.length + 1 ∧
    (∀ j d, j < s.arena.length →
      (applyMutation (Mutation.rakeGesture pt id r moves) s).arena.getD j d =
        s.arena.getD j d) ∧
    (applyMutation (Mutation.rakeGesture pt id r moves) s).arena.getD s.arena.length [] =
      pt :: gestureFilter pt moves ∧
    (applyMutation (Mutation.rakeGesture pt id r moves) s).rakePaths =
      (if gestureFilter pt moves = [] then s.rakePaths
       else updateScenePath { id := id, ptsRef := s.arena.length, width := 8 + r * 4 }
              s.rakePaths) ∧
    (applyMutation (Mutation.rakeGesture pt id r moves) s).placedObjects = s.placedObjects := by
  rw [applyMutation_rake_eq, handleMouseDown_rake_eq]
  exact rakeGesture_core s
    { saveState s with
        isDrawing := true
        arena := s.arena ++ [[pt]]
        currentPath := some { id := id, ptsRef := s.arena.length, width := 8 + r * 4 }
        lastPoint := some pt }
    { id := id, ptsRef := s.arena.length, width := 8 + r * 4 } pt moves hv
    rfl rfl rfl rfl rfl rfl rfl rfl

theorem placeAt_spec (sel : GardenObject) (pt : Point) (id : String) (r1 r2 : ℚ)
    (s : GardenState) (hv : validState s) :
    (applyMutation (Mutation.placeAt sel pt id r1 r2) s).undoStack =
      slice20 (s.undoStack ++ [{ rakePaths := s.rakePaths, placedObjects := s.placedObjects }]) ∧
    validState (applyMutation (Mutation.placeAt sel pt id r1 r2) s) ∧
    (applyMutation (Mutation.placeAt sel pt id r1 r2) s).isDrawing = s.isDrawing ∧
    (applyMutation (Mutation.placeAt sel pt id r1 r2) s).currentPath = s.currentPath ∧
    (applyMutation (Mutation.placeAt sel pt id r1 r2) s).arena = s.arena ∧
    (applyMutation (Mutation.placeAt sel pt id r1 r2) s).rakePaths = s.rakePaths ∧
    (applyMutation (Mutation.placeAt sel pt id r1 r2) s).placedObjects =
      s.placedObjects ++
        [{ id := id, type := sel, x := pt.x, y := pt.y
           rotation := (r1 - 1/2) * (2/5), scale := 4/5 + r2 * (2/5) }] :=
  ⟨rfl, saveState_valid s hv, rfl, rfl, rfl, rfl, rfl⟩

theorem reset_spec (s : GardenState) (hv : validState s) :
    (applyMutation Mutation.reset s).undoStack =
      slice20 (s.undoStack ++ [{ rakePaths := s.rakePaths, placedObjects := s.placedObjects }]) ∧
    validState (applyMutation Mutation.reset s) ∧
    (applyMutation Mutation.reset s).isDrawing = s.isDrawing ∧
    (applyMutation Mutation.reset s).currentPath = s.currentPath ∧
    (applyMutation Mutation.reset s).arena = s.arena ∧
    (applyMutation Mutation.reset s).rakePaths = [] ∧
    (applyMutation Mutation.reset s).placedObjects = [] := by
  have hs := saveState_valid s hv
  refine ⟨rfl, ⟨?_, hs.2.1, hs.2.2⟩, rfl, rfl, rfl, rfl, rfl⟩
  intro q hq
  have hq' : q ∈ ([] : List RakePathRef) := hq
  simp at hq'

theorem autoPattern_spec (tr : Trig) (cw ch : ℚ) (g : Rng) (i : ℕ) (idBase : String)
    (s : GardenState) (hv : validState s) :
    (applyMutation (Mutation.autoPattern tr cw ch g i idBase) s).undoStack =
      slice20 (s.undoStack ++ [{ rakePaths := s.rakePaths, placedObjects := s.placedObjects }]) ∧
    validState (applyMutation (Mutation.autoPattern tr cw ch g i idBase) s) ∧
    (applyMutation (Mutation.autoPattern tr cw ch g i idBase) s).isDrawing = s.isDrawing ∧
    (applyMutation (Mutation.autoPattern tr cw ch g i idBase) s).currentPath = s.currentPath ∧
    s.arena.length ≤ (applyMutation (Mutation.autoPattern tr cw ch g i idBase) s).arena.length ∧
    (∀ j d, j < s.arena.length →
      (applyMutation (Mutation.autoPattern tr cw ch g i idBase) s).arena.getD j d =
        s.arena.getD j d) := by
  obtain ⟨k1, k2, k3, k4, k5, k6, k7⟩ := generatePattern_frame tr cw ch g i idBase s
  obtain ⟨v1, v2, v3⟩ := hv
  rw [autoPattern_eq]
  refine ⟨k1, ⟨k7, ?_, ?_⟩, k2, k3, k5, k6⟩
  · intro c hc p hp
    have hc' : c ∈ (saveState s).undoStack := by
      rw [← k1]
      exact hc
    have hc'' := mem_slice20 _ c hc'
    have hlt : p.ptsRef < s.arena.length := by
      rcases List.mem_append.mp hc'' with h | h
      · exact v2 c h p hp
      · have hcc : c = { rakePaths := s.rakePaths, placedObjects := s.placedObjects } := by
          simpa using h
        rw [hcc] at hp
        exact v1 p hp
    omega
  · intro cp hcp
    rw [k3] at hcp
    have := v3 cp hcp
    omega

theorem applyMutation_spec (m : Mutation) (s : GardenState) (hv : validState s)
    (hd : s.isDrawing = false) (hc : s.currentPath = none) :
    (applyMutation m s).undoStack =
      slice20 (s.undoStack ++ [{ rakePaths := s.rakePaths, placedObjects := s.placedObjects }]) ∧
    validState (applyMutation m s) ∧
    (applyMutation m s).isDrawing = false ∧
    (applyMutation m s).currentPath = none ∧
    s.arena.length ≤ (applyMutation m s).arena.length ∧
    (∀ j d, j < s.arena.length → (applyMutation m s).arena.getD j d = s.arena.getD j d) := by
  cases m with
  | rakeGesture pt id r moves =>
      obtain ⟨k1, k2, k3, k4, k5, k6, _, _, _⟩ := rakeGesture_spec pt id r moves s hv
      exact ⟨k1, k2, k3, k4, by omega, k6⟩
  | placeAt sel pt id r1 r2 =>
      obtain ⟨k1, k2, k3, k4, k5, _, _⟩ := placeAt_spec sel pt id r1 r2 s hv
      refine ⟨k1, k2, k3.trans hd, k4.trans hc, ?_, ?_⟩
      · rw [k5]
      · intro j d _
        rw [k5]
  | reset =>
      obtain ⟨k1, k2, k3, k4, k5, _, _⟩ := reset_spec s hv
      refine ⟨k1, k2, k3.trans hd, k4.trans hc, ?_, ?_⟩
      · rw [k5]
      · intro j d _
        rw [k5]
  | autoPattern tr cw ch g i idBase =>
      obtain ⟨k1, k2, k3, k4, k5, k6⟩ := autoPattern_spec tr cw ch g i idBase s hv
      exact ⟨k1, k2, k3.trans hd, k4.trans hc, k5, k6⟩

theorem initState_valid : validState initState := by
  refine ⟨?_, ?_, ?_⟩
  · intro p hp
    simp [initState] at hp
  · intro c hc
    simp [initState] at hc
  · intro cp hcp
    simp [initState] at hcp

theorem runMutations_inv (ms : List Mutation) :
    ∀ s, validState s → s.isDrawing = false → s.currentPath = none →
      validState (runMutations ms s) ∧ (runMutations ms s).isDrawing = false ∧
      (runMutations ms s).currentPath = none := by
  induction ms with
  | nil => intro s hv hd hc; exact ⟨hv, hd, hc⟩
  | cons m rest ih =>
      intro s hv hd hc
      obtain ⟨_, h2, h3, h4, _, _⟩ := applyMutation_spec m s hv hd hc
      exact ih (applyMutation m s) h2 h3 h4

theorem runMutations_init_inv (ms : List Mutation) :
    validState (runMutations ms initState) ∧ (runMutations ms initState).isDrawing = false ∧
      (runMutations ms initState).currentPath = none :=
  runMutations_inv ms initState initState_valid rfl rfl

theorem undo_eq_of_getLast (s : GardenState) (c : CanvasState)
    (h : s.undoStack.getLast? = some c) :
    undo s = { s with
        rakePaths := c.rakePaths
        placedObjects := c.placedObjects
        undoStack := s.undoStack.dropLast } := by
  unfold undo
  rw [h]

theorem undo_eq_of_empty (s : GardenState) (h : s.undoStack = []) : undo s = s := by
  unfold undo
  rw [h]
  rfl

theorem undo_flags (s : GardenState) :
    (undo s).isDrawing = s.isDrawing ∧ (undo s).currentPath = s.currentPath ∧
    (undo s).arena = s.arena ∧ (undo s).undoStack = s.undoStack.dropLast := by
  unfold undo
  cases hgl : s.undoStack.getLast? with
  | none =>
      have hnil : s.undoStack = [] := by
        cases hs : s.undoStack with
        | nil => rfl
        | cons a tl =>
            rw [hs] at hgl
            simp [List.getLast?] at hgl
      rw [hnil]
      exact ⟨rfl, rfl, rfl, rfl⟩
  | some c => exact ⟨rfl, rfl, rfl, rfl⟩

theorem undo_valid (s : GardenState) (hv : validState s) : validState (undo s) := by
  obtain ⟨v1, v2, v3⟩ := hv
  cases hgl : s.undoStack.getLast? with
  | none =>
      have hnil : s.undoStack = [] := by
        cases hs : s.undoStack with
        | nil => rfl
        | cons a tl =>
            rw [hs] at hgl
            simp [List.getLast?] at hgl
      rw [undo_eq_of_empty s hnil]
      exact ⟨v1, v2, v3⟩
  | some c =>
      rw [undo_eq_of_getLast s c hgl]
      have hcm := List.mem_of_getLast?_eq_some hgl
      refine ⟨?_, ?_, v3⟩
      · intro p hp
        exact v2 c hcm p hp
      · intro c2 hc2 p hp
        exact v2 c2 ((List.dropLast_sublist _).subset hc2) p hp

theorem obsStack_length (s : GardenState) : (obsStack s).length = s.undoStack.length :=
  List.length_map _ _

theorem head?_dropLast_of_ne (l : List α) (h : l.dropLast ≠ []) :
    l.dropLast.head? = l.head? := by
  cases l with
  | nil => rfl
  | cons a rest =>
      cases rest with
      | nil => simp at h
      | cons b bs => rfl

theorem applyMutation_obsStack (m : Mutation) (s : GardenState) (hv : validState s)
    (hd : s.isDrawing = false) (hc : s.currentPath = none) :
    obsStack (applyMutation m s) = slice20 (obsStack s ++ [obsScene s]) := by
  obtain ⟨h1, _, _, _, _, hframe⟩ := applyMutation_spec m s hv hd hc
  obtain ⟨v1, v2, _⟩ := hv
  have hsnap : ∀ c ∈ s.undoStack ++
      [({ rakePaths := s.rakePaths, placedObjects := s.placedObjects } : CanvasState)],
      obsSnap (applyMutation m s).arena c = obsSnap s.arena c := by
    intro c hcm
    have hval : ∀ p ∈ c.rakePaths, p.ptsRef < s.arena.length := by
      rcases List.mem_append.mp hcm with h | h
      · exact v2 c h
      · have hcc := List.mem_singleton.mp h
        intro p hp
        rw [hcc] at hp
        exact v1 p hp
    unfold obsSnap
    have hmap : c.rakePaths.map (resolvePath (applyMutation m s).arena) =
        c.rakePaths.map (resolvePath s.arena) := by
      apply List.map_congr_left
      intro p hp
      unfold resolvePath
      rw [hframe p.ptsRef [] (hval p hp)]
    rw [hmap]
  show (applyMutation m s).undoStack.map (obsSnap (applyMutation m s).arena) = _
  rw [h1, ← slice20_map, List.map_append]
  congr 1
  congr 1
  · exact List.map_congr_left (fun c hcm => hsnap c (List.mem_append.mpr (Or.inl hcm)))
  · show [obsSnap (applyMutation m s).arena _] = [obsScene s]
    rw [hsnap _ (List.mem_append.mpr (Or.inr (by simp)))]
    rfl

theorem undoIter_pops (n : ℕ) :
    ∀ (H : List (List ObsPath × List PlacedObject)) (s : GardenState),
      validState s → obsStack s = H → H.length = n →
      (undoIter n s).undoStack = [] ∧
      obsScene (undoIter n s) = H.head?.getD (obsScene s) := by
  induction n with
  | zero =>
      intro H s _ hH hlen
      have hHnil : H = [] := List.length_eq_zero.mp hlen
      subst hHnil
      have hnil : s.undoStack = [] := by
        have := congrArg List.length hH
        rw [obsStack_length] at this
        exact List.length_eq_zero.mp this
      exact ⟨hnil, rfl⟩
  | succ k ih =>
      intro H s hv hH hlen
      have hne : s.undoStack ≠ [] := by
        intro hnil
        have := congrArg List.length hH
        rw [obsStack_length, hnil] at this
        simp at this
        omega
      obtain ⟨c, hc⟩ : ∃ c, s.undoStack.getLast? = some c := by
        cases hgl : s.undoStack.getLast? with
        | none =>
            exfalso
            apply hne
            cases hs : s.undoStack with
            | nil => rfl
            | cons a tl =>
                rw [hs] at hgl
                simp [List.getLast?] at hgl
        | some c => exact ⟨c, rfl⟩
      have hundo := undo_eq_of_getLast s c hc
      have hstack : obsStack (undo s) = H.dropLast := by
        rw [hundo]
        show (s.undoStack.dropLast).map (obsSnap s.arena) = H.dropLast
        rw [List.map_dropLast, ← hH]
        rfl
      have hglH : H.getLast? = some (obsSnap s.arena c) := by
        rw [← hH]
        show (s.undoStack.map (obsSnap s.arena)).getLast? = _
        rw [List.getLast?_map, hc]
        rfl
      have hscene : obsScene (undo s) = obsSnap s.arena c := by
        rw [hundo]
        rfl
      have hvu := undo_valid s hv
      have hlen' : H.dropLast.length = k := by
        rw [List.length_dropLast, hlen]
        omega
      have ihh := ih H.dropLast (undo s) hvu hstack hlen'
      show (undoIter k (undo s)).undoStack = [] ∧ obsScene (undoIter k (undo s)) = _
      refine ⟨ihh.1, ?_⟩
      rw [ihh.2, hscene]
      by_cases hdl : H.dropLast = []
      · rw [hdl]
        have hH1 : H.length = 1 := by
          have := congrArg List.length hdl
          rw [List.length_dropLast] at this
          simp at this
          omega
        obtain ⟨x, hx⟩ := List.length_eq_one.mp hH1
        rw [hx] at hglH
        have hxc : x = obsSnap s.arena c := by simpa using hglH
        rw [hx, hxc]
        rfl
      · rw [head?_dropLast_of_ne H hdl]
        have hHne : H ≠ [] := by
          intro hh
          rw [hh] at hlen
          simp at hlen
        obtain ⟨x, hx⟩ : ∃ x, H.head? = some x := by
          cases hH2 : H.head? with
          | none =>
              exfalso
              apply hHne
              cases hs : H with
              | nil => rfl
              | cons a tl =>
                  rw [hs] at hH2
                  simp at hH2
          | some x => exact ⟨x, rfl⟩
        rw [hx]
        rfl

theorem saveState_stackLen (s : GardenState) :
    (saveState s).undoStack.length = min (s.undoStack.length + 1) 20 := by
  show (slice20 (s.undoStack ++ [_])).length = _
  rw [slice20_length, List.length_append]
  rfl

theorem getLast?_of_ne_nil (l : List α) (h : l ≠ []) : ∃ a, l.getLast? = some a := by
  cases hl : l.getLast? with
  | none =>
      exfalso
      apply h
      cases hs : l with
      | nil => rfl
      | cons a tl =>
          rw [hs] at hl
          simp [List.getLast?] at hl
  | some a => exact ⟨a, rfl⟩

theorem stepEvent_stackLen (e : Event) (s : GardenState) (h : s.undoStack.length ≤ 20) :
    (stepEvent e s).undoStack.length ≤ 20 := by
  cases e with
  | mouseDown tool sel pt id r1 r2 =>
      cases tool <;>
        (show (saveState s).undoStack.length ≤ 20
         rw [saveState_stackLen]
         omega)
  | mouseMove tool pt => rw [show (stepEvent (Event.mouseMove tool pt) s) =
      handleMouseMove tool pt s from rfl, (handleMouseMove_frame tool pt s).2.1]; exact h
  | mouseUp =>
      show (handleMouseUp s).undoStack.length ≤ 20
      unfold handleMouseUp
      split
      · exact h
      · exact h
  | touchStart tool sel pt id r1 r2 =>
      cases tool <;>
        (show (saveState s).undoStack.length ≤ 20
         rw [saveState_stackLen]
         omega)
  | touchMove tool pt => rw [show (stepEvent (Event.touchMove tool pt) s) =
      handleMouseMove tool pt s from rfl, (handleMouseMove_frame tool pt s).2.1]; exact h
  | touchEnd =>
      show (handleTouchEnd s).undoStack.length ≤ 20
      unfold handleTouchEnd
      split
      · exact h
      · exact h
  | clear =>
      show (saveState s).undoStack.length ≤ 20
      rw [saveState_stackLen]
      omega
  | undoButton =>
      show (undo s).undoStack.length ≤ 20
      rw [(undo_flags s).2.2.2, List.length_dropLast]
      omega
  | autoPattern tr cw ch g i idBase =>
      show (generatePattern tr cw ch g i idBase s).undoStack.length ≤ 20
      rw [(generatePattern_frame tr cw ch g i idBase s).1, saveState_stackLen]
      omega

theorem runEvents_stackLen (es : List Event) :
    ∀ s : GardenState, s.undoStack.length ≤ 20 →
      (runEvents es s).undoStack.length ≤ 20 := by
  induction es with
  | nil => intro s h; exact h
  | cons e rest ih =>
      intro s h
      exact ih (stepEvent e s) (stepEvent_stackLen e s h)

theorem undoIter_len (n : ℕ) : ∀ s : GardenState, n ≤ s.undoStack.length →
    (undoIter n s).undoStack.length = s.undoStack.length - n := by
  induction n with
  | zero => intro s _; simp [undoIter]
  | succ k ih =>
      intro s h
      have hne : s.undoStack ≠ [] := by
        intro hh
        rw [hh] at h
        simp at h
      show (undoIter k (undo s)).undoStack.length = _
      rw [ih (undo s) (by rw [(undo_flags s).2.2.2, List.length_dropLast]; omega)]
      rw [(undo_flags s).2.2.2, List.length_dropLast]
      omega

theorem runMutations_stackLen (ms : List Mutation) :
    (runMutations ms initState).undoStack.length = min ms.length 20 := by
  induction ms using List.reverseRecOn with
  | nil => rfl
  | append_singleton ms m ih =>
      obtain ⟨hv, hd, hc⟩ := runMutations_init_inv ms
      obtain ⟨h1, _, _, _, _, _⟩ := applyMutation_spec m (runMutations ms initState) hv hd hc
      rw [runMutations_concat, h1, slice20_length, List.length_append]
      simp only [List.length_append, List.length_singleton, ih]
      omega

theorem obsStack_run (ms : List Mutation) (hlen : ms.length ≤ 20) :
    obsStack (runMutations ms initState) =
      (List.range ms.length).map
        (fun k => obsScene (runMutations (ms.take k) initState)) := by
  induction ms using List.reverseRecOn with
  | nil => rfl
  | append_singleton ms m ih =>
      have hms : ms.length ≤ 20 := by
        rw [List.length_append] at hlen
        simp at hlen
        omega
      obtain ⟨hv, hd, hc⟩ := runMutations_init_inv ms
      rw [runMutations_concat, applyMutation_obsStack m _ hv hd hc, ih hms]
      have hlen2 : ms.length + 1 ≤ 20 := by
        rw [List.length_append] at hlen
        simpa using hlen
      have hid := slice20_eq_self
        ((List.range ms.length).map (fun k => obsScene (runMutations (ms.take k) initState)) ++
          [obsScene (runMutations ms initState)])
        (by
          rw [List.length_append, List.length_map, List.length_range, List.length_singleton]
          omega)
      rw [hid, List.length_append, List.length_singleton, List.range_succ, List.map_append]
      congr 1
      · apply List.map_congr_left
        intro k hk
        have hkle : k ≤ ms.length := le_of_lt (List.mem_range.mp hk)
        rw [List.take_append_of_le_length hkle]
      · show [obsScene (runMutations ms initState)] = _
        rw [List.map_singleton, List.take_append_of_le_length (le_refl _), List.take_length]

theorem undo_restores_core (ms : List Mutation) (m : Mutation) :
    obsScene (undo (runMutations (ms ++ [m]) initState)) =
      obsScene (runMutations ms initState) := by
  obtain ⟨hv, hd, hc⟩ := runMutations_init_inv ms
  obtain ⟨h1, _, _, _, _, hframe⟩ := applyMutation_spec m (runMutations ms initState) hv hd hc
  obtain ⟨v1, _, _⟩ := hv
  rw [runMutations_concat]
  have hgl : (applyMutation m (runMutations ms initState)).undoStack.getLast? =
      some { rakePaths := (runMutations ms initState).rakePaths
             placedObjects := (runMutations ms initState).placedObjects } := by
    rw [h1]
    exact slice20_getLast_append _ _
  rw [undo_eq_of_getLast _ _ hgl]
  show ((runMutations ms initState).rakePaths.map
      (resolvePath (applyMutation m (runMutations ms initState)).arena),
      (runMutations ms initState).placedObjects) =
    ((runMutations ms initState).rakePaths.map
      (resolvePath (runMutations ms initState).arena),
      (runMutations ms initState).placedObjects)
  congr 1
  apply List.map_congr_left
  intro p hp
  unfold resolvePath
  rw [hframe p.ptsRef [] (v1 p hp)]

theorem applyMutation_undoStack (m : Mutation) (s : GardenState) :
    (applyMutation m s).undoStack =
      slice20 (s.undoStack ++
        [{ rakePaths := s.rakePaths, placedObjects := s.placedObjects }]) := by
  cases m with
  | rakeGesture pt id r moves =>
      rw [applyMutation_rake_eq, handleMouseDown_rake_eq]
      obtain ⟨f1, _, f3, _, _, _, _, _, _⟩ :=
        rakeFold_spec moves
          { saveState s with
              isDrawing := true
              arena := s.arena ++ [[pt]]
              currentPath := some { id := id, ptsRef := s.arena.length, width := 8 + r * 4 }
              lastPoint := some pt }
          { id := id, ptsRef := s.arena.length, width := 8 + r * 4 } pt rfl rfl rfl (by simp)
      rw [handleMouseUp_of_drawing _ f1]
      exact f3
  | placeAt sel pt id r1 r2 => rfl
  | reset => rfl
  | autoPattern tr cw ch g i idBase =>
      exact (generatePattern_frame tr cw ch g i idBase s).1

theorem undoIter_all_to_empty (ms : List Mutation) (hlen : ms.length ≤ 20) :
    obsScene (undoIter ms.length (runMutations ms initState)) = ([], []) ∧
    (undoIter ms.length (runMutations ms initState)).undoStack = [] := by
  obtain ⟨hv, _, _⟩ := runMutations_init_inv ms
  have hHlen : (obsStack (runMutations ms initState)).length = ms.length := by
    rw [obsStack_length, runMutations_stackLen]
    omega
  obtain ⟨h1, h2⟩ := undoIter_pops ms.length (obsStack (runMutations ms initState))
    (runMutations ms initState) hv rfl hHlen
  refine ⟨?_, h1⟩
  rw [h2]
  cases ms with
  | nil => rfl
  | cons m0 rest =>
      rw [obsStack_run (m0 :: rest) hlen]
      have hr : (List.range (m0 :: rest).length).head? = some 0 := by
        show (List.range (rest.length + 1)).head? = some 0
        rw [List.range_succ_eq_map]
        rfl
      rw [List.head?_map, hr]
      rfl

/-- C1 (amended): starting from the empty initial scene, after any sequence
of complete mutating operations one `undo()` restores the observable scene
(grooves and placed objects) to exactly its state before the most recent
mutation; after N mutations with N ≤ 20 (the history capacity), N calls to
`undo()` restore the empty initial scene and leave the history empty; and
`undo()` on an empty history is a no-op on the whole state.  (As originally
stated — for every N — the claim fails for N > 20; see the
counterexample.) -/
theorem undo_restores_scene :
    (∀ (ms : List Mutation) (m : Mutation),
      obsScene (undo (runMutations (ms ++ [m]) initState)) =
        obsScene (runMutations ms initState)) ∧
    (∀ ms : List Mutation, ms.length ≤ 20 →
      obsScene (undoIter ms.length (runMutations ms initState)) = ([], []) ∧
      (undoIter ms.length (runMutations ms initState)).undoStack = []) ∧
    (∀ s : GardenState, s.undoStack = [] → undo s = s) :=
  ⟨undo_restores_core, undoIter_all_to_empty, undo_eq_of_empty⟩

/-- Witness for C1's amended theorem at concrete inputs. -/
theorem undo_restores_scene_witness :
    obsScene (undo (runMutations ([Mutation.reset] ++ [Mutation.reset]) initState)) =
      obsScene (runMutations [Mutation.reset] initState) ∧
    (obsScene (undoIter 1 (runMutations [Mutation.reset] initState)) = ([], []) ∧
     (undoIter 1 (runMutations [Mutation.reset] initState)).undoStack = []) ∧
    undo initState = initState :=
  ⟨undo_restores_scene.1 [Mutation.reset] Mutation.reset,
   undo_restores_scene.2.1 [Mutation.reset] (by decide),
   undo_restores_scene.2.2 initState rfl⟩

/-- C1 counterexample: after 21 placements, 21 calls to `undo()` do not
restore the empty initial scene — the history held only the last 20
snapshots, so one placed object survives. -/
theorem undo_21_times_not_empty :
    obsScene (undoIter 21 (runMutations (List.replicate 21
      (Mutation.placeAt GardenObject.stone { x := 0, y := 0 } "a" 0 0)) initState)) ≠
      ([], []) := by
  decide

/-- C2: the undo history never exceeds 20 snapshots under any raw event
sequence; pushing onto a full history drops the oldest entry (FIFO
eviction); undo pops the newest entry and discards it (LIFO, no redo); and
after 25 mutations exactly 20 undos succeed, after which undo is a no-op. -/
theorem history_capacity_twenty :
    (∀ es : List Event, (runEvents es initState).undoStack.length ≤ 20) ∧
    (∀ s : GardenState, s.undoStack.length = 20 →
      (saveState s).undoStack =
        s.undoStack.tail ++ [{ rakePaths := s.rakePaths, placedObjects := s.placedObjects }]) ∧
    (∀ s : GardenState, (undo s).undoStack = s.undoStack.dropLast) ∧
    (∀ ms : List Mutation, ms.length = 25 →
      (∀ k, k < 20 → (undoIter k (runMutations ms initState)).undoStack ≠ []) ∧
      (undoIter 20 (runMutations ms initState)).undoStack = [] ∧
      undo (undoIter 20 (runMutations ms initState)) =
        undoIter 20 (runMutations ms initState)) := by
  refine ⟨?_, ?_, ?_, ?_⟩
  · intro es
    exact runEvents_stackLen es initState (by simp [initState])
  · intro s h20
    show slice20 (s.undoStack ++ [_]) = _
    rw [slice20_append_last, h20]
    rw [show (20 + 1 - 20 : ℕ) = 1 from rfl, List.drop_one]
  · intro s
    exact (undo_flags s).2.2.2
  · intro ms h25
    have hstack : (runMutations ms initState).undoStack.length = 20 := by
      rw [runMutations_stackLen, h25]
      omega
    have hempty : (undoIter 20 (runMutations ms initState)).undoStack = [] := by
      have hl := undoIter_len 20 (runMutations ms initState) (by omega)
      rw [hstack] at hl
      exact List.length_eq_zero.mp (by rw [hl])
    refine ⟨?_, hempty, undo_eq_of_empty _ hempty⟩
    intro k hk hnil
    have hl := undoIter_len k (runMutations ms initState) (by omega)
    rw [hstack, hnil] at hl
    simp at hl
    omega

/-- Witness for C2's theorem at concrete inputs. -/
theorem history_capacity_twenty_witness :
    ((saveState { initState with
        undoStack := List.replicate 20 { rakePaths := [], placedObjects := [] } }).undoStack =
      (List.replicate 20 ({ rakePaths := [], placedObjects := [] } : CanvasState)).tail ++
        [{ rakePaths := [], placedObjects := [] }]) ∧
    ((∀ k, k < 20 →
        (undoIter k (runMutations (List.replicate 25 Mutation.reset) initState)).undoStack ≠
          []) ∧
     (undoIter 20 (runMutations (List.replicate 25 Mutation.reset) initState)).undoStack = [] ∧
     undo (undoIter 20 (runMutations (List.replicate 25 Mutation.reset) initState)) =
       undoIter 20 (runMutations (List.replicate 25 Mutation.reset) initState)) :=
  ⟨history_capacity_twenty.2.1 _ (by simp),
   history_capacity_twenty.2.2.2 _ (by simp)⟩

/-- C3: every mutating operation — a rake gesture (pointer down with
tool=rake, moves, up), placing an object, reset, and pattern generation —
pushes exactly one snapshot holding the pre-mutation scene onto the history
before mutating: afterwards the top of the history is the pre-mutation
scene and the history grew by exactly one entry (capped at 20). -/
theorem mutation_pushes_presnapshot :
    ∀ (m : Mutation) (s : GardenState),
      (applyMutation m s).undoStack =
        slice20 (s.undoStack ++
          [{ rakePaths := s.rakePaths, placedObjects := s.placedObjects }]) ∧
      (applyMutation m s).undoStack.getLast? =
        some { rakePaths := s.rakePaths, placedObjects := s.placedObjects } ∧
      (applyMutation m s).undoStack.length = min (s.undoStack.length + 1) 20 := by
  intro m s
  have h := applyMutation_undoStack m s
  refine ⟨h, ?_, ?_⟩
  · rw [h]
    exact slice20_getLast_append _ _
  · rw [h, slice20_length, List.length_append]
    rfl

/-- C10: pointer-move and touch-move events never touch the undo history
(same length, same contents — nothing pushed, nothing popped), so a whole
rake gesture adds exactly the one history entry created at its pointer
down. -/
theorem rake_moves_leave_history :
    (∀ (t : Tool) (pt : Point) (s : GardenState),
      (handleMouseMove t pt s).undoStack = s.undoStack ∧
      (handleTouchMove t pt s).undoStack = s.undoStack) ∧
    (∀ (pt : Point) (id : String) (r : ℚ) (moves : List Point) (s : GardenState),
      (applyMutation (Mutation.rakeGesture pt id r moves) s).undoStack =
        slice20 (s.undoStack ++
          [{ rakePaths := s.rakePaths, placedObjects := s.placedObjects }])) :=
  ⟨fun t pt s => ⟨(handleMouseMove_frame t pt s).2.1, (handleMouseMove_frame t pt s).2.1⟩,
   fun pt id r moves s => applyMutation_undoStack (Mutation.rakeGesture pt id r moves) s⟩

/-- C4 counterexample: `saveState` stores shallow copies.  After a rake
gesture is begun and extended, a reset (possible mid-gesture, e.g. by
keyboard activation) pushes a snapshot that shares the live points array;
one further move event mutates the stored snapshot's contents in place —
the stack holds the same references but its observable contents changed. -/
theorem snapshot_shallow_copy_counterexample :
    ((runEvents [Event.mouseDown Tool.rake GardenObject.stone { x := 0, y := 0 } "a" 0 0,
        Event.mouseMove Tool.rake { x := 10, y := 0 },
        Event.clear] initState).undoStack =
      (runEvents [Event.mouseDown Tool.rake GardenObject.stone { x := 0, y := 0 } "a" 0 0,
        Event.mouseMove Tool.rake { x := 10, y := 0 },
        Event.clear,
        Event.mouseMove Tool.rake { x := 20, y := 0 }] initState).undoStack) ∧
    obsStack (runEvents [Event.mouseDown Tool.rake GardenObject.stone { x := 0, y := 0 } "a" 0 0,
        Event.mouseMove Tool.rake { x := 10, y := 0 },
        Event.clear] initState) ≠
      obsStack (runEvents [Event.mouseDown Tool.rake GardenObject.stone { x := 0, y := 0 } "a" 0 0,
        Event.mouseMove Tool.rake { x := 10, y := 0 },
        Event.clear,
        Event.mouseMove Tool.rake { x := 20, y := 0 }] initState) := by
  constructor
  · decide
  · decide

/-- C4 (amended): `saveState` stores shallow copies, so a mid-gesture
snapshot aliases the live points array (see the counterexample); however,
across sequences of complete mutating operations every stored snapshot's
observable contents are preserved, and each mutation appends exactly the
observable pre-mutation scene to the history. -/
theorem snapshots_stable_across_mutations :
    ∀ (ms : List Mutation) (m : Mutation),
      obsStack (runMutations (ms ++ [m]) initState) =
        slice20 (obsStack (runMutations ms initState) ++
          [obsScene (runMutations ms initState)]) := by
  intro ms m
  obtain ⟨hv, hd, hc⟩ := runMutations_init_inv ms
  rw [runMutations_concat]
  exact applyMutation_obsStack m _ hv hd hc

/-- C5: in a rake gesture the recorded points are exactly the down point
followed by the moved-to points kept by the greedy 3-pixel filter — a move
is appended if and only if its squared distance from the last recorded
point exceeds 9, which is equivalent to its Euclidean distance exceeding 3;
kept points appear strictly in call order (a sublist of the moves) and
every consecutive pair of recorded points exceeds the threshold; the
gesture's groove enters the scene exactly when at least one move was kept. -/
theorem rake_gesture_threshold (pt : Point) (id : String) (r : ℚ) (moves : List Point)
    (s : GardenState) (hv : validState s)
    (hfresh : ∀ p ∈ s.rakePaths, p.id ≠ id) :
    (applyMutation (Mutation.rakeGesture pt id r moves) s).arena.getD s.arena.length [] =
      pt :: gestureFilter pt moves ∧
    (gestureFilter pt moves = [] →
      (applyMutation (Mutation.rakeGesture pt id r moves) s).rakePaths = s.rakePaths) ∧
    (gestureFilter pt moves ≠ [] →
      (applyMutation (Mutation.rakeGesture pt id r moves) s).rakePaths =
        s.rakePaths ++ [{ id := id, ptsRef := s.arena.length, width := 8 + r * 4 }]) ∧
    (gestureFilter pt moves).Sublist moves ∧
    List.Chain (fun a b => exceedsThreshold a b = true) pt (gestureFilter pt moves) ∧
    (∀ a b : Point, exceedsThreshold a b = true ↔
      (3 : ℝ) < Real.sqrt (((b.x - a.x) ^ 2 + (b.y - a.y) ^ 2 : ℚ) : ℝ)) := by
  obtain ⟨_, _, _, _, _, _, k7, k8, _⟩ := rakeGesture_spec pt id r moves s hv
  refine ⟨k7, ?_, ?_, gestureFilter_sublist moves pt, gestureFilter_chain moves pt,
    fun a b => exceedsThreshold_iff_sqrt a b⟩
  · intro h
    rw [k8, if_pos h]
  · intro h
    rw [k8, if_neg h]
    exact updateScenePath_fresh _ _ hfresh

/-- Witness for C5's theorem: a gesture from the empty scene with one
super-threshold move and one sub-threshold move. -/
theorem rake_gesture_threshold_witness :
    (validState initState ∧
      (∀ p ∈ initState.rakePaths, p.id ≠ "g")) ∧
    ((applyMutation (Mutation.rakeGesture { x := 0, y := 0 } "g" 0
          [{ x := 10, y := 0 }, { x := 11, y := 0 }]) initState).arena.getD
        initState.arena.length [] =
      { x := 0, y := 0 } ::
        gestureFilter { x := 0, y := 0 } [{ x := 10, y := 0 }, { x := 11, y := 0 }] ∧
    (gestureFilter { x := 0, y := 0 } [{ x := 10, y := 0 }, { x := 11, y := 0 }] = [] →
      (applyMutation (Mutation.rakeGesture { x := 0, y := 0 } "g" 0
          [{ x := 10, y := 0 }, { x := 11, y := 0 }]) initState).rakePaths =
        initState.rakePaths) ∧
    (gestureFilter { x := 0, y := 0 } [{ x := 10, y := 0 }, { x := 11, y := 0 }] ≠ [] →
      (applyMutation (Mutation.rakeGesture { x := 0, y := 0 } "g" 0
          [{ x := 10, y := 0 }, { x := 11, y := 0 }]) initState).rakePaths =
        initState.rakePaths ++
          [{ id := "g", ptsRef := initState.arena.length, width := 8 + 0 * 4 }]) ∧
    (gestureFilter { x := 0, y := 0 }
        [{ x := 10, y := 0 }, { x := 11, y := 0 }]).Sublist
      [{ x := 10, y := 0 }, { x := 11, y := 0 }] ∧
    List.Chain (fun a b => exceedsThreshold a b = true) { x := 0, y := 0 }
      (gestureFilter { x := 0, y := 0 } [{ x := 10, y := 0 }, { x := 11, y := 0 }]) ∧
    (∀ a b : Point, exceedsThreshold a b = true ↔
      (3 : ℝ) < Real.sqrt (((b.x - a.x) ^ 2 + (b.y - a.y) ^ 2 : ℚ) : ℝ))) :=
  ⟨⟨initState_valid, by intro p hp; simp [initState] at hp⟩,
    rake_gesture_threshold { x := 0, y := 0 } "g" 0
      [{ x := 10, y := 0 }, { x := 11, y := 0 }] initState initState_valid
      (by intro p hp; simp [initState] at hp)⟩

/-- C6 counterexample: a rake gesture that never exceeds the 3-pixel
threshold adds NO path to the scene (the claim asserts a 1-point path is
present): after down at (0,0), a 1px move, and up, the scene's groove list
is empty while the history did gain one slot. -/
theorem subthreshold_gesture_no_scene_path :
    (runMutations [Mutation.rakeGesture { x := 0, y := 0 } "a" 0 [{ x := 1, y := 0 }]]
      initState).rakePaths = [] ∧
    (runMutations [Mutation.rakeGesture { x := 0, y := 0 } "a" 0 [{ x := 1, y := 0 }]]
      initState).undoStack.length = 1 := by
  constructor
  · decide
  · decide

/-- C6 (amended): a rake gesture that never exceeds the 3px threshold
leaves the scene (grooves and objects) unchanged — its single-point path
exists only in the transient current-path reference and its points cell,
and is discarded at pointer-up — while still occupying one history slot
(the pre-gesture snapshot, capped at 20 entries). -/
theorem subthreshold_gesture_only_history (pt : Point) (id : String) (r : ℚ)
    (moves : List Point) (s : GardenState) (hv : validState s)
    (hsub : gestureFilter pt moves = []) :
    (applyMutation (Mutation.rakeGesture pt id r moves) s).rakePaths = s.rakePaths ∧
    (applyMutation (Mutation.rakeGesture pt id r moves) s).placedObjects = s.placedObjects ∧
    (applyMutation (Mutation.rakeGesture pt id r moves) s).undoStack =
      slice20 (s.undoStack ++
        [{ rakePaths := s.rakePaths, placedObjects := s.placedObjects }]) ∧
    (applyMutation (Mutation.rakeGesture pt id r moves) s).arena.getD s.arena.length [] =
      [pt] := by
  obtain ⟨k1, _, _, _, _, _, k7, k8, k9⟩ := rakeGesture_spec pt id r moves s hv
  refine ⟨?_, k9, k1, ?_⟩
  · rw [k8, if_pos hsub]
  · rw [k7, hsub]

/-- Witness for C6's amended theorem at a concrete sub-threshold gesture. -/
theorem subthreshold_gesture_only_history_witness :
    (validState initState ∧
      gestureFilter { x := 0, y := 0 } [{ x := 1, y := 0 }] = []) ∧
    ((applyMutation (Mutation.rakeGesture { x := 0, y := 0 } "a" 0 [{ x := 1, y := 0 }])
        initState).rakePaths = initState.rakePaths ∧
    (applyMutation (Mutation.rakeGesture { x := 0, y := 0 } "a" 0 [{ x := 1, y := 0 }])
        initState).placedObjects = initState.placedObjects ∧
    (applyMutation (Mutation.rakeGesture { x := 0, y := 0 } "a" 0 [{ x := 1, y := 0 }])
        initState).undoStack =
      slice20 (initState.undoStack ++
        [{ rakePaths := initState.rakePaths, placedObjects := initState.placedObjects }]) ∧
    (applyMutation (Mutation.rakeGesture { x := 0, y := 0 } "a" 0 [{ x := 1, y := 0 }])
        initState).arena.getD initState.arena.length [] = [{ x := 0, y := 0 }]) :=
  ⟨⟨initState_valid, by decide⟩,
    subthreshold_gesture_only_history { x := 0, y := 0 } "a" 0 [{ x := 1, y := 0 }]
      initState initState_valid (by decide)⟩

theorem loopCount_cast_of_nonneg (q : ℚ) (hq : 0 ≤ q) : (loopCount q : ℤ) = ⌊q⌋ + 1 := by
  unfold loopCount
  rw [if_neg (not_lt.mpr hq)]
  have h := Int.toNat_of_nonneg (Int.floor_nonneg.mpr hq)
  push_cast
  rw [h]

theorem loopCount_intCast_ge (n : ℤ) (m : ℕ) (h : (m : ℤ) ≤ n + 1) (hn : 0 ≤ n) :
    m ≤ loopCount ((n : ℚ)) := by
  have he := loopCount_cast_of_nonneg (n : ℚ) (by exact_mod_cast hn)
  rw [Int.floor_intCast] at he
  omega

theorem circleLen (tr : Trig) (cx cy r : ℚ) :
    (generateCirclePattern tr cx cy r).length = loopCount (((⌊r * (1/2)⌋ : ℤ) : ℚ)) := by
  simp [generateCirclePattern]

theorem spiralLen (tr : Trig) (cx cy rad turns : ℚ) :
    (generateSpiralPattern tr cx cy rad turns).length = loopCount (turns * 50) := by
  simp [generateSpiralPattern]

theorem waveLen (tr : Trig) (sx sy ex amp freq : ℚ) :
    (generateWavePattern tr sx sy ex amp freq).length =
      loopCount (((⌊(ex - sx) / 3⌋ : ℤ) : ℚ)) := by
  simp [generateWavePattern]

theorem ellipse_len_ge (tr : Trig) (cx cy rx ry : ℚ) :
    25 ≤ (generateEllipsePattern tr cx cy rx ry).length := by
  have h : (generateEllipsePattern tr cx cy rx ry).length =
      loopCount (((max 24 ⌊(piQ * (3 * (rx + ry) -
        tr.sqrt ((3 * rx + ry) * (rx + 3 * ry)))) * (3/10)⌋ : ℤ) : ℚ)) := by
    simp [generateEllipsePattern]
  rw [h]
  apply loopCount_intCast_ge
  · omega
  · omega

theorem circle_len_ge_two (tr : Trig) (cx cy r : ℚ) (hr : 2 ≤ r) :
    2 ≤ (generateCirclePattern tr cx cy r).length := by
  have h1 : (1 : ℤ) ≤ ⌊r * (1/2)⌋ := by
    rw [Int.le_floor]
    push_cast
    linarith
  rw [circleLen]
  apply loopCount_intCast_ge
  · omega
  · omega

/-- C8 (amended): each parametric generator returns a finite point sequence
whose length is an exact linear function of the shape's size — circle
⌊r/2⌋+1 points, spiral ⌊50·turns⌋+1, wave ⌊(endX−startX)/3⌋+1 — and is
monotone in the size, but only the ellipse generator enforces the 24-point
floor (its length is always ≥ 25); the others can return far fewer than 24
points.  Determinism given the arguments holds because each generator is a
pure function of its arguments (and the ambient trig primitives). -/
theorem generator_lengths (tr : Trig) :
    (∀ cx cy r : ℚ, 0 ≤ r →
      ((generateCirclePattern tr cx cy r).length : ℤ) = ⌊r * (1/2)⌋ + 1) ∧
    (∀ cx cy rad turns : ℚ, 0 ≤ turns →
      ((generateSpiralPattern tr cx cy rad turns).length : ℤ) = ⌊turns * 50⌋ + 1) ∧
    (∀ sx sy ex amp freq : ℚ, sx ≤ ex →
      ((generateWavePattern tr sx sy ex amp freq).length : ℤ) = ⌊(ex - sx) / 3⌋ + 1) ∧
    (∀ cx cy rx ry : ℚ, 25 ≤ (generateEllipsePattern tr cx cy rx ry).length) ∧
    (∀ cx cy r r2 : ℚ, 0 ≤ r → r ≤ r2 →
      (generateCirclePattern tr cx cy r).length ≤
        (generateCirclePattern tr cx cy r2).length) := by
  refine ⟨?_, ?_, ?_, fun cx cy rx ry => ellipse_len_ge tr cx cy rx ry, ?_⟩
  · intro cx cy r hr
    have hnn : (0 : ℚ) ≤ ((⌊r * (1/2)⌋ : ℤ) : ℚ) := by
      exact_mod_cast Int.floor_nonneg.mpr (mul_nonneg hr (by norm_num))
    rw [circleLen, loopCount_cast_of_nonneg _ hnn, Int.floor_intCast]
  · intro cx cy rad turns ht
    rw [spiralLen, loopCount_cast_of_nonneg _ (mul_nonneg ht (by norm_num))]
  · intro sx sy ex amp freq hse
    have hnn : (0 : ℚ) ≤ ((⌊(ex - sx) / 3⌋ : ℤ) : ℚ) := by
      exact_mod_cast Int.floor_nonneg.mpr (div_nonneg (sub_nonneg.mpr hse) (by norm_num))
    rw [waveLen, loopCount_cast_of_nonneg _ hnn, Int.floor_intCast]
  · intro cx cy r r2 hr hrr
    have hnn1 : (0 : ℚ) ≤ ((⌊r * (1/2)⌋ : ℤ) : ℚ) := by
      exact_mod_cast Int.floor_nonneg.mpr (mul_nonneg hr (by norm_num))
    have hnn2 : (0 : ℚ) ≤ ((⌊r2 * (1/2)⌋ : ℤ) : ℚ) := by
      exact_mod_cast Int.floor_nonneg.mpr (mul_nonneg (le_trans hr hrr) (by norm_num))
    have e1 := loopCount_cast_of_nonneg _ hnn1
    have e2 := loopCount_cast_of_nonneg _ hnn2
    rw [Int.floor_intCast] at e1 e2
    have hf : ⌊r * (1/2)⌋ ≤ ⌊r2 * (1/2)⌋ := Int.floor_le_floor (by linarith)
    rw [circleLen, circleLen]
    omega

/-- Witness for C8's amended theorem at concrete sizes. -/
theorem generator_lengths_witness :
    ((0 : ℚ) ≤ 30 ∧
      ((generateCirclePattern trivTrig 0 0 30).length : ℤ) = ⌊(30 : ℚ) * (1/2)⌋ + 1) ∧
    ((generateSpiralPattern trivTrig 0 0 250 4).length : ℤ) = ⌊(4 : ℚ) * 50⌋ + 1 ∧
    ((generateWavePattern trivTrig 50 100 750 30 2).length : ℤ) =
      ⌊((750 : ℚ) - 50) / 3⌋ + 1 ∧
    25 ≤ (generateEllipsePattern trivTrig 0 0 40 24).length :=
  ⟨⟨by norm_num, (generator_lengths trivTrig).1 0 0 30 (by norm_num)⟩,
   (generator_lengths trivTrig).2.1 0 0 250 4 (by norm_num),
   (generator_lengths trivTrig).2.2.1 50 100 750 30 2 (by norm_num),
   (generator_lengths trivTrig).2.2.2.1 0 0 40 24⟩

/-- C8 counterexample: the circle generator has no 24-point floor — at
radius 30, as used by the mandala layout's center circle, it returns only
16 points. -/
theorem circle_pattern_below_floor :
    (generateCirclePattern trivTrig 0 0 30).length = 16 ∧
    (generateCirclePattern trivTrig 0 0 30).length < 24 := by
  constructor
  · decide
  · decide

theorem last_of_all (L : List RakePath) (hne : L ≠ [])
    (hall : ∀ p ∈ L, 2 ≤ p.points.length) :
    ∃ p, L.getLast? = some p ∧ 2 ≤ p.points.length := by
  obtain ⟨p, hp⟩ := getLast?_of_ne_nil L hne
  exact ⟨p, hp, hall p (List.mem_of_getLast?_eq_some hp)⟩

theorem qRange_ne_nil (bound step start : ℚ) (fuel : ℕ) (h : start < bound) (hf : fuel ≠ 0) :
    qRange bound step start fuel ≠ [] := by
  cases fuel with
  | zero => exact absurd rfl hf
  | succ f =>
      unfold qRange
      rw [if_pos h]
      simp

theorem qRange_mem_ge (bound step : ℚ) (hstep : 0 ≤ step) :
    ∀ (fuel : ℕ) (start x : ℚ), x ∈ qRange bound step start fuel → start ≤ x := by
  intro fuel
  induction fuel with
  | zero => intro start x hx; simp [qRange] at hx
  | succ f ih =>
      intro start x hx
      unfold qRange at hx
      by_cases h : start < bound
      · rw [if_pos h] at hx
        rcases List.mem_cons.mp hx with rfl | hx'
        · exact le_refl x
        · have := ih (start + step) x hx'
          linarith
      · rw [if_neg h] at hx
        simp at hx

theorem circlePaths_all (tr : Trig) (cx cy : ℚ) (g : Rng) :
    ∀ (rs : List ℚ) (i : ℕ) (p : RakePath), p ∈ (circlePaths tr cx cy g rs i).1 →
      ∃ rr, rr ∈ rs ∧ p.points = generateCirclePattern tr cx cy rr := by
  intro rs
  induction rs with
  | nil => intro i p hp; simp [circlePaths] at hp
  | cons r rest ih =>
      intro i p hp
      simp only [circlePaths] at hp
      rcases List.mem_cons.mp hp with rfl | hp'
      · exact ⟨r, by simp, rfl⟩
      · obtain ⟨rr, hrr, hpts⟩ := ih (i + 1) p hp'
        exact ⟨rr, by simp [hrr], hpts⟩

theorem circlePaths_ne (tr : Trig) (cx cy : ℚ) (g : Rng) (rs : List ℚ) (i : ℕ)
    (h : rs ≠ []) : (circlePaths tr cx cy g rs i).1 ≠ [] := by
  cases rs with
  | nil => exact absurd rfl h
  | cons r rest => simp [circlePaths]

theorem patternCircles_good (tr : Trig) (g : Rng) (i : ℕ) :
    ∃ p, (patternCircles tr 800 600 g i).1.getLast? = some p ∧ 2 ≤ p.points.length := by
  apply last_of_all
  · apply circlePaths_ne
    apply qRange_ne_nil
    · norm_num [min_def]
    · omega
  · intro p hp
    obtain ⟨rr, hrr, hpts⟩ := circlePaths_all tr _ _ g _ i p hp
    have hge := qRange_mem_ge (min (800 : ℚ) 600 / 2 - 50) 40 (by norm_num) 1000 50 rr hrr
    rw [hpts]
    exact circle_len_ge_two tr _ _ rr (by linarith)

theorem patternSpiral_good (tr : Trig) (g : Rng) (i : ℕ) :
    ∃ p, (patternSpiral tr 800 600 g i).1.getLast? = some p ∧ 2 ≤ p.points.length := by
  refine ⟨{ id := "spiral-main"
            points := generateSpiralPattern tr (800/2) (600/2) (min (800 : ℚ) 600 / 2 - 50) 4
            width := 8 + g i * 4 }, rfl, ?_⟩
  rw [spiralLen]
  decide

theorem wavePathsAux_all (tr : Trig) (cw spacing : ℚ) (g : Rng) :
    ∀ (rem k i : ℕ) (p : RakePath), p ∈ (wavePathsAux tr cw spacing g rem k i).1 →
      ∃ sy amp freq, p.points = generateWavePattern tr 50 sy (cw - 50) amp freq := by
  intro rem
  induction rem with
  | zero => intro k i p hp; simp [wavePathsAux] at hp
  | succ f ih =>
      intro k i p hp
      simp only [wavePathsAux] at hp
      rcases List.mem_cons.mp hp with rfl | hp'
      · exact ⟨spacing * (k : ℚ), 30 + g i * 20, 2 + g (i + 1) * 2, rfl⟩
      · exact ih (k + 1) (i + 3) p hp'

theorem wavePathsAux_ne (tr : Trig) (cw spacing : ℚ) (g : Rng) (rem k i : ℕ)
    (h : rem ≠ 0) : (wavePathsAux tr cw spacing g rem k i).1 ≠ [] := by
  cases rem with
  | zero => exact absurd rfl h
  | succ f => simp [wavePathsAux]

theorem patternWaves_good (tr : Trig) (g : Rng) (i : ℕ) :
    ∃ p, (patternWaves tr 800 600 g i).1.getLast? = some p ∧ 2 ≤ p.points.length := by
  apply last_of_all
  · exact wavePathsAux_ne tr 800 (600 / (5 + 1)) g 5 1 i (by omega)
  · intro p hp
    obtain ⟨sy, amp, freq, hpts⟩ := wavePathsAux_all tr 800 (600 / (5 + 1)) g 5 1 i p hp
    rw [hpts, waveLen]
    decide

theorem mandalaPetal_length (tr : Trig) (cx cy a : ℚ) :
    (mandalaPetal tr cx cy a).length = 31 := by
  simp [mandalaPetal]

theorem patternMandala_good (tr : Trig) (g : Rng) (i : ℕ) :
    ∃ p, (patternMandala tr 800 600 g i).1.getLast? = some p ∧ 2 ≤ p.points.length := by
  refine ⟨{ id := "center-circle"
            points := generateCirclePattern tr (800/2) (600/2) 30
            width := 8 }, ?_, ?_⟩
  · show ((mandalaPetals tr (800/2) (600/2) g 8 0 i).1 ++ [_]).getLast? = _
    exact List.getLast?_concat _
  · exact circle_len_ge_two tr _ _ 30 (by norm_num)

theorem zenLinePoints_length (tr : Trig) (ch x : ℚ) (g : Rng) (j : ℕ) :
    (zenLinePoints tr ch x g j).length = 41 := by
  simp [zenLinePoints]

theorem zenLinesAux_all (tr : Trig) (ch spacing : ℚ) (g : Rng) :
    ∀ (rem k i : ℕ) (p : RakePath), p ∈ (zenLinesAux tr ch spacing g rem k i).1 →
      ∃ x j, p.points = zenLinePoints tr ch x g j := by
  intro rem
  induction rem with
  | zero => intro k i p hp; simp [zenLinesAux] at hp
  | succ f ih =>
      intro k i p hp
      simp only [zenLinesAux] at hp
      rcases List.mem_cons.mp hp with rfl | hp'
      · exact ⟨spacing * (k : ℚ), i, rfl⟩
      · exact ih (k + 1) (i + 42) p hp'

theorem zenLinesAux_ne (tr : Trig) (ch spacing : ℚ) (g : Rng) (rem k i : ℕ)
    (h : rem ≠ 0) : (zenLinesAux tr ch spacing g rem k i).1 ≠ [] := by
  cases rem with
  | zero => exact absurd rfl h
  | succ f => simp [zenLinesAux]

theorem patternZenLines_good (tr : Trig) (g : Rng) (i : ℕ) :
    ∃ p, (patternZenLines tr 800 600 g i).1.getLast? = some p ∧ 2 ≤ p.points.length := by
  apply last_of_all
  · exact zenLinesAux_ne tr 600 (800 / (12 + 1)) g 12 1 i (by omega)
  · intro p hp
    obtain ⟨x, j, hpts⟩ := zenLinesAux_all tr 600 (800 / (12 + 1)) g 12 1 i p hp
    rw [hpts, zenLinePoints_length]
    omega

theorem ellipsePathsAux_all (tr : Trig) (cx cy maxRX maxRY : ℚ) (g : Rng) :
    ∀ (rs : List ℚ) (i : ℕ) (p : RakePath),
      p ∈ (ellipsePathsAux tr cx cy maxRX maxRY g rs i).1 →
      ∃ rx ry, p.points = generateEllipsePattern tr cx cy rx ry := by
  intro rs
  induction rs with
  | nil => intro i p hp; simp [ellipsePathsAux] at hp
  | cons r rest ih =>
      intro i p hp
      simp only [ellipsePathsAux] at hp
      rcases List.mem_cons.mp hp with rfl | hp'
      · exact ⟨r, max 24 ((r / maxRX) * maxRY), rfl⟩
      · exact ih (i + 1) p hp'

theorem ellipsePathsAux_ne (tr : Trig) (cx cy maxRX maxRY : ℚ) (g : Rng) (rs : List ℚ)
    (i : ℕ) (h : rs ≠ []) : (ellipsePathsAux tr cx cy maxRX maxRY g rs i).1 ≠ [] := by
  cases rs with
  | nil => exact absurd rfl h
  | cons r rest => simp [ellipsePathsAux]

theorem patternEllipses_good (tr : Trig) (g : Rng) (i : ℕ) :
    ∃ p, (patternEllipses tr 800 600 g i).1.getLast? = some p ∧ 2 ≤ p.points.length := by
  apply last_of_all
  · apply ellipsePathsAux_ne
    apply qRange_ne_nil
    · norm_num [min_def]
    · omega
  · intro p hp
    obtain ⟨rx, ry, hpts⟩ := ellipsePathsAux_all tr _ _ _ _ g _ _ p hp
    rw [hpts]
    have := ellipse_len_ge tr (800/2) (600/2) rx ry
    omega

theorem patternDoubleSpiral_good (tr : Trig) (g : Rng) (i : ℕ) :
    ∃ p, (patternDoubleSpiral tr 800 600 g i).1.getLast? = some p ∧ 2 ≤ p.points.length := by
  apply last_of_all
  · simp [patternDoubleSpiral]
  · intro p hp
    simp only [patternDoubleSpiral] at hp
    rcases List.mem_cons.mp hp with rfl | hp'
    · rw [spiralLen]
      decide
    · rcases List.mem_cons.mp hp' with rfl | h
      · simp only [List.length_map]
        rw [spiralLen]
        decide
      · simp at h

theorem bambooPoints_length (tr : Trig) (ch x sway freq : ℚ) :
    (bambooPoints tr ch x sway freq).length = 49 := by
  simp [bambooPoints]

theorem bambooAux_all (tr : Trig) (cw ch : ℚ) (stalks : ℕ) (g : Rng) :
    ∀ (rem k i : ℕ) (p : RakePath), p ∈ (bambooAux tr cw ch stalks g rem k i).1 →
      ∃ x sway freq, p.points = bambooPoints tr ch x sway freq := by
  intro rem
  induction rem with
  | zero => intro k i p hp; simp [bambooAux] at hp
  | succ f ih =>
      intro k i p hp
      simp only [bambooAux] at hp
      rcases List.mem_cons.mp hp with rfl | hp'
      · exact ⟨_, _, _, rfl⟩
      · exact ih (k + 1) (i + 3) p hp'

theorem bambooAux_ne (tr : Trig) (cw ch : ℚ) (stalks : ℕ) (g : Rng) (rem k i : ℕ)
    (h : rem ≠ 0) : (bambooAux tr cw ch stalks g rem k i).1 ≠ [] := by
  cases rem with
  | zero => exact absurd rfl h
  | succ f => simp [bambooAux]

theorem patternBamboo_good (tr : Trig) (g : Rng) (i : ℕ) :
    ∃ p, (patternBamboo tr 800 600 g i).1.getLast? = some p ∧ 2 ≤ p.points.length := by
  apply last_of_all
  · exact bambooAux_ne tr 800 600 _ g _ 0 (i + 1) (by omega)
  · intro p hp
    obtain ⟨x, sway, freq, hpts⟩ := bambooAux_all tr 800 600 _ g _ 0 (i + 1) p hp
    rw [hpts, bambooPoints_length]
    omega

theorem rippleLoop_all (tr : Trig) (cx cy bound : ℚ) (g : Rng) (c : ℕ)
    (hg : ∀ n, 0 ≤ g n) :
    ∀ (fuel : ℕ) (r : ℚ) (i : ℕ) (p : RakePath),
      p ∈ (rippleLoop tr cx cy bound g c r i fuel).1 →
      ∃ rr, r ≤ rr ∧ p.points = generateCirclePattern tr cx cy rr := by
  intro fuel
  induction fuel with
  | zero => intro r i p hp; simp [rippleLoop] at hp
  | succ f ih =>
      intro r i p hp
      by_cases hb : r < bound
      · simp only [rippleLoop, if_pos hb] at hp
        rcases List.mem_cons.mp hp with rfl | hp'
        · exact ⟨r, le_refl r, rfl⟩
        · obtain ⟨rr, hle, hpts⟩ := ih (r + (32 + g (i + 1) * 12)) (i + 2) p hp'
          have hm : (0 : ℚ) ≤ g (i + 1) * 12 := mul_nonneg (hg (i + 1)) (by norm_num)
          exact ⟨rr, by linarith, hpts⟩
      · simp only [rippleLoop, if_neg hb] at hp
        simp at hp

theorem rippleLoop_ne (tr : Trig) (cx cy bound : ℚ) (g : Rng) (c : ℕ) (r : ℚ)
    (i fuel : ℕ) (hb : r < bound) (hf : fuel ≠ 0) :
    (rippleLoop tr cx cy bound g c r i fuel).1 ≠ [] := by
  cases fuel with
  | zero => exact absurd rfl hf
  | succ f => simp [rippleLoop, if_pos hb]

theorem ripplesAux_all (tr : Trig) (cw ch : ℚ) (g : Rng) (hg : ∀ n, 0 ≤ g n) :
    ∀ (rem c i : ℕ) (p : RakePath), p ∈ (ripplesAux tr cw ch g rem c i).1 →
      ∃ cx cy rr, (40 : ℚ) ≤ rr ∧ p.points = generateCirclePattern tr cx cy rr := by
  intro rem
  induction rem with
  | zero => intro c i p hp; simp [ripplesAux] at hp
  | succ f ih =>
      intro c i p hp
      simp only [ripplesAux] at hp
      rcases List.mem_append.mp hp with hl | hr
      · obtain ⟨rr, hle, hpts⟩ := rippleLoop_all tr _ _ _ g c hg 1000 40 (i + 2) p hl
        exact ⟨_, _, rr, hle, hpts⟩
      · exact ih (c + 1) _ p hr

theorem ripplesAux_ne (tr : Trig) (cw ch : ℚ) (g : Rng) (rem c i : ℕ)
    (hrem : rem ≠ 0) (hb : (40 : ℚ) < min cw ch / 3) :
    (ripplesAux tr cw ch g rem c i).1 ≠ [] := by
  cases rem with
  | zero => exact absurd rfl hrem
  | succ f =>
      simp only [ripplesAux]
      intro hcontra
      rcases List.append_eq_nil.mp hcontra with ⟨h1, _⟩
      exact rippleLoop_ne tr _ _ _ g c 40 (i + 2) 1000 hb (by omega) h1

theorem patternRipples_good (tr : Trig) (g : Rng) (hg : RngOk g) (i : ℕ) :
    ∃ p, (patternRipples tr 800 600 g i).1.getLast? = some p ∧ 2 ≤ p.points.length := by
  have hg0 : ∀ n, 0 ≤ g n := fun n => (hg n).1
  apply last_of_all
  · apply ripplesAux_ne
    · omega
    · norm_num [min_def]
  · intro p hp
    obtain ⟨cx, cy, rr, hle, hpts⟩ := ripplesAux_all tr 800 600 g hg0 _ 0 (i + 1) p hp
    rw [hpts]
    exact circle_len_ge_two tr cx cy rr (by linarith)

theorem serpRowPoints_length (tr : Trig) (cw ch : ℚ) (row : ℕ) (g : Rng) (i : ℕ) :
    (serpRowPoints tr cw ch row g i).length = 81 := by
  simp [serpRowPoints]

theorem serpRows_len (tr : Trig) (cw ch : ℚ) (g : Rng) (rem row i : ℕ) (h : rem ≠ 0) :
    2 ≤ (serpRows tr cw ch g rem row i).length := by
  cases rem with
  | zero => exact absurd rfl h
  | succ f =>
      show 2 ≤ (serpRowPoints tr cw ch row g i ++ serpRows tr cw ch g f (row + 1) (i + 81)).length
      rw [List.length_append, serpRowPoints_length]
      omega

theorem patternSerpentine_good (tr : Trig) (g : Rng) (i : ℕ) :
    ∃ p, (patternSerpentine tr 800 600 g i).1.getLast? = some p ∧ 2 ≤ p.points.length := by
  refine ⟨_, rfl, ?_⟩
  exact serpRows_len tr 800 600 g 10 0 i (by omega)

theorem zenPatternAt_good (tr : Trig) (g : Rng) (hg : RngOk g) (k : ℕ) (hk : k < 10)
    (i : ℕ) :
    ∃ p, (zenPatternAt tr 800 600 k g i).1.getLast? = some p ∧ 2 ≤ p.points.length := by
  interval_cases k
  · exact patternCircles_good tr g i
  · exact patternSpiral_good tr g i
  · exact patternWaves_good tr g i
  · exact patternMandala_good tr g i
  · exact patternZenLines_good tr g i
  · exact patternEllipses_good tr g i
  · exact patternDoubleSpiral_good tr g i
  · exact patternBamboo_good tr g i
  · exact patternRipples_good tr g hg i
  · exact patternSerpentine_good tr g i

theorem revealPaths_last (ps : List RakePath) (p : RakePath) (s : GardenState)
    (hlast : ps.getLast? = some p) (hne : p.points ≠ []) :
    ∃ r, (revealPaths ps s).rakePaths.getLast? = some r ∧
      (revealPaths ps s).arena.getD r.ptsRef [] = p.points := by
  obtain ⟨ps', hps⟩ := List.getLast?_eq_some_iff.mp hlast
  subst hps
  have hfold : revealPaths (ps' ++ [p]) s = revealPath p (revealPaths ps' s) := by
    unfold revealPaths
    rw [List.foldl_append]
    rfl
  rw [hfold]
  obtain ⟨_, _, _, _, _, _, _, k8, _, k10⟩ := revealPath_spec p (revealPaths ps' s)
  refine ⟨{ id := p.id, ptsRef := (revealPaths ps' s).arena.length, width := p.width },
    ?_, ?_⟩
  · rw [k10 hne]
    exact List.getLast?_concat _
  · exact k8

theorem generatePattern_scene (tr : Trig) (g : Rng) (i : ℕ) (idBase : String)
    (s : GardenState) (p : RakePath)
    (hlast : (generateZenPattern tr 800 600 g i).1.getLast? = some p)
    (hne : p.points ≠ []) :
    ∃ r, (generatePattern tr 800 600 g i idBase s).rakePaths.getLast? = some r ∧
      (generatePattern tr 800 600 g i idBase s).arena.getD r.ptsRef [] = p.points := by
  obtain ⟨r, hr1, hr2⟩ := revealPaths_last (generateZenPattern tr 800 600 g i).1 p
    { saveState s with rakePaths := [], placedObjects := [] } hlast hne
  unfold generatePattern
  by_cases hcond : 3/10 < g (generateZenPattern tr 800 600 g i).2 <;>
    simp only [hcond, reduceIte] <;> exact ⟨r, hr1, hr2⟩

/-- C7: on the fixed 800×600 canvas, after `generatePattern` runs to
completion with any in-range random stream, the scene contains a groove
path whose dereferenced point sequence has at least 2 points; moreover
every one of the ten selectable layout algorithms returns at least one
path with at least 2 points. -/
theorem generate_yields_multipoint_path (tr : Trig) (g : Rng) (hg : RngOk g) (i : ℕ)
    (idBase : String) (s : GardenState) :
    (∃ q ∈ (generatePattern tr 800 600 g i idBase s).rakePaths,
      2 ≤ ((generatePattern tr 800 600 g i idBase s).arena.getD q.ptsRef []).length) ∧
    (∀ k, k < 10 → ∀ j, ∃ p ∈ (zenPatternAt tr 800 600 k g j).1, 2 ≤ p.points.length) := by
  constructor
  · have hk : (⌊g i * 10⌋).toNat < 10 := by
      obtain ⟨h0, h1⟩ := hg i
      have hf : ⌊g i * 10⌋ < 10 := by
        apply Int.floor_lt.mpr
        push_cast
        nlinarith
      omega
    obtain ⟨p, hlast, hlen⟩ := zenPatternAt_good tr g hg _ hk (i + 1)
    have hpne : p.points ≠ [] := by
      intro hnil
      rw [hnil] at hlen
      simp at hlen
    obtain ⟨r, hr1, hr2⟩ := generatePattern_scene tr g i idBase s p hlast hpne
    refine ⟨r, List.mem_of_getLast?_eq_some hr1, ?_⟩
    rw [hr2]
    exact hlen
  · intro k hk j
    obtain ⟨p, hlast, hlen⟩ := zenPatternAt_good tr g hg k hk j
    exact ⟨p, List.mem_of_getLast?_eq_some hlast, hlen⟩

/-- Witness for C7's theorem with the all-zero (in-range) random stream. -/
theorem generate_yields_multipoint_path_witness :
    RngOk (fun _ => 0) ∧
    ((∃ q ∈ (generatePattern trivTrig 800 600 (fun _ => 0) 0 "x" initState).rakePaths,
      2 ≤ ((generatePattern trivTrig 800 600 (fun _ => 0) 0 "x" initState).arena.getD
        q.ptsRef []).length) ∧
    (∀ k, k < 10 → ∀ j, ∃ p ∈ (zenPatternAt trivTrig 800 600 k (fun _ => 0) j).1,
      2 ≤ p.points.length)) :=
  ⟨fun _ => ⟨le_refl 0, by norm_num⟩,
   generate_yields_multipoint_path trivTrig (fun _ => 0)
     (fun _ => ⟨le_refl 0, by norm_num⟩) 0 "x" initState⟩

/-- C9: the light ("wood frame") theme's controller and the dark ("slate")
theme's controller compute the same state transition for every single raw
event, and therefore produce identical garden state (grooves, placed
objects, undo history) on every event sequence from every start state;
the two variants differ only in rendering. -/
theorem light_dark_controllers_equal :
    (∀ e s, lightStepEvent e s = stepEvent e s) ∧
    (∀ es s, runLightEvents es s = runEvents es s) := by
  have hstep : ∀ e s, lightStepEvent e s = stepEvent e s := by
    intro e s
    cases e <;> rfl
  refine ⟨hstep, ?_⟩
  intro es
  induction es with
  | nil => intro s; rfl
  | cons e rest ih =>
      intro s
      show runLightEvents rest (lightStepEvent e s) = runEvents rest (stepEvent e s)
      rw [hstep, ih]

end Zen
